import Mathlib

/-!
# Verification of the runnai activity-classification and best-effort engine

Shallow embedding of the run classifier (`src/utils/activities-db.ts`, classifier
section), the sliding-window segment search and best-effort merge
(`src/tools/best-efforts.ts`), and the synchronization orchestrator's persistence
steps (`src/tools/strava.ts`, `src/utils/activities-db.ts`).

JavaScript numbers are modelled as exact rationals (`ℚ`); all concrete inputs used
in the theorems stay far from any comparison boundary, so the rational model and
IEEE doubles agree on every branch taken.  SQLite tables are modelled as Lean lists
of typed rows; `INSERT OR REPLACE` is modelled by its documented SQLite semantics
(the conflicting row is deleted and a fresh row is inserted, unlisted columns
receiving their column defaults).
-/

/-! ## Data model (from `src/types/index.ts`) -/

inductive RunType where
  | easy | tempo | intervals | fartlek | long_run | race | recovery
  | threshold | progression | unknown
deriving DecidableEq, Repr

inductive Confidence where
  | high | medium | low
deriving DecidableEq, Repr

structure ClassificationResult where
  run_type : RunType
  run_type_detail : Option String
  confidence : Confidence
deriving DecidableEq, Repr

structure ActivityLapRecord where
  activity_id : ℕ
  lap_index : ℕ
  distance : ℚ
  elapsed_time : ℚ
  moving_time : ℚ
  average_speed : ℚ
  max_speed : ℚ
  average_heartrate : Option ℚ
  max_heartrate : Option ℚ
  start_index : ℕ
  end_index : ℕ
deriving DecidableEq, Repr, Inhabited

structure HrZones where
  lt1 : ℚ
  lt2 : ℚ
  max_hr : ℚ
  confirmed : Bool
deriving DecidableEq, Repr

/-- The `ActivityData` slice of an activity row consumed by the classifier
(`run-classifier` section of `activities-db.ts`). -/
structure ActivityData where
  id : ℕ
  distance : ℚ
  moving_time : ℚ
  average_speed : ℚ
  average_heartrate : Option ℚ
  workout_type : Option ℤ
deriving DecidableEq, Repr

/-! ## Lap-pattern classifier (from the classifier section of `activities-db.ts`) -/

/-- Source function `getHrZone`: five ordinal zones split at `lt1 × 0.88`, `lt1`,
`lt2` and `max_hr × 0.97`. -/
def getHrZone (hr : ℚ) (zones : HrZones) : ℕ :=
  if hr < zones.lt1 then (if hr < zones.lt1 * 0.88 then 1 else 2)
  else if hr < zones.lt2 then 3
  else if hr < zones.max_hr * 0.97 then 4
  else 5

/-- Source function `getMedian`: numeric-sort a copy, take the middle element
(or the mean of the two middle elements for even length). -/
def getMedian (values : List ℚ) : ℚ :=
  let sorted := values.mergeSort (fun a b => a ≤ b)
  let mid := sorted.length / 2
  if sorted.length % 2 = 0 then (sorted.getD (mid - 1) 0 + sorted.getD mid 0) / 2
  else sorted.getD mid 0

/-- The source's `coefficientOfVariation` returns `sqrt(variance)/mean` (`0` for
fewer than two values or zero mean) and its single caller only evaluates the
comparison `cv < 0.15`.  We embed that comparison directly: for `mean > 0` and
`variance ≥ 0`, `sqrt(variance)/mean < 0.15 ↔ variance < 0.0225 · mean²`, and for
`mean < 0` the quotient is nonpositive so the comparison is true.  This keeps the
definition executable over `ℚ` without `Real.sqrt`. -/
def coefficientOfVariation_lt_015 (values : List ℚ) : Bool :=
  if values.length < 2 then true
  else
    let mean := values.sum / (values.length : ℚ)
    if mean = 0 then true
    else if mean < 0 then true
    else
      let variance := (values.map (fun v => (v - mean) ^ 2)).sum / (values.length : ℚ)
      decide (variance < 0.0225 * mean ^ 2)

/-- Source function `isProgression`: over the "core" paces (drop first and last lap
when more than four laps), count consecutive deltas with `next < prev × 1.01`, and
require at least 80 % of the deltas to be decreasing. -/
def isProgression (paces : List ℚ) : Bool :=
  if paces.length < 3 then false
  else
    let corePaces := if paces.length > 4 then (paces.drop 1).dropLast else paces
    let decreasing := (corePaces.zip corePaces.tail).countP
      (fun p => decide (p.2 < p.1 * 1.01))
    decide ((decreasing : ℚ) ≥ ((corePaces.length : ℚ) - 1) * 0.8)

/-- Source function `isAlternatingPattern`: merge the work/rest index lists in index
order and require at least `workLaps.length` adjacent type changes. -/
def isAlternatingPattern (workLaps restLaps : List ℕ) : Bool :=
  if workLaps.length < 2 then false
  else
    let allLaps := ((workLaps.map (fun i => (i, true))) ++
      (restLaps.map (fun i => (i, false)))).mergeSort (fun a b => a.1 ≤ b.1)
    let alternations := (allLaps.zip allLaps.tail).countP
      (fun p => decide (p.1.2 ≠ p.2.2))
    decide (alternations ≥ workLaps.length)

/-- JavaScript `Math.round` rounds half toward positive infinity, which is
Mathlib's `round` (`⌊x + 1/2⌋`). -/
def jsRound (q : ℚ) : ℤ := round q

/-- JavaScript `toFixed(1)` for the nonnegative values produced by the tempo
detail: one decimal digit, ties rounded up. -/
def toFixed1 (q : ℚ) : String :=
  let n : ℤ := jsRound (q * 10)
  toString (n / 10) ++ "." ++ toString (n % 10)

/-- JavaScript `padStart(2, "0")` applied to a rendered integer. -/
def pad2 (n : ℤ) : String :=
  if 0 ≤ n ∧ n < 10 then "0" ++ toString n else toString n

/-- Source function `formatIntervalDetail`: count of work laps and their average
distance, matched against standard repeat distances, else rounded to 100 m. -/
def formatIntervalDetail (workLaps : List ℕ) (laps : List ActivityLapRecord) : String :=
  let count := workLaps.length
  let avgDistance := (workLaps.map (fun i => (laps.getD i default).distance)).sum / (count : ℚ)
  if |avgDistance - 1000| < 150 then toString count ++ "x1km"
  else if |avgDistance - 800| < 100 then toString count ++ "x800m"
  else if |avgDistance - 400| < 80 then toString count ++ "x400m"
  else if |avgDistance - 1600| < 200 ∨ |avgDistance - 1609| < 200 then toString count ++ "x1mi"
  else if |avgDistance - 2000| < 200 then toString count ++ "x2km"
  else if |avgDistance - 1200| < 150 then toString count ++ "x1200m"
  else
    let roundedM := jsRound (avgDistance / 100) * 100
    toString count ++ "x" ++ toString roundedM ++ "m"

/-- Source function `formatFartlekDetail`: count × average work minutes / average
rest minutes, falling back to seconds when the average work time is under a
minute. -/
def formatFartlekDetail (workLaps restLaps : List ℕ) (laps : List ActivityLapRecord) : String :=
  let workCount := workLaps.length
  let avgWorkTime := (workLaps.map (fun i => (laps.getD i default).moving_time)).sum / (workCount : ℚ)
  let avgRestTime := if restLaps.length > 0 then
      (restLaps.map (fun i => (laps.getD i default).moving_time)).sum / (restLaps.length : ℚ)
    else 0
  let workMin := jsRound (avgWorkTime / 60)
  let restMin := jsRound (avgRestTime / 60)
  if workMin > 0 ∧ restMin > 0 then
    toString workCount ++ "x" ++ toString workMin ++ "/" ++ toString restMin ++ "min"
  else if workMin > 0 then
    toString workCount ++ "x" ++ toString workMin ++ "min"
  else
    let workSec := jsRound (avgWorkTime / 10) * 10
    toString workCount ++ "x" ++ toString workSec ++ "s"

/-- The scanning loop of `detectTempoBlock`: walk the pace list left to right
carrying the current `(fastStart, fastEnd)` span (`none` before the first fast
lap); a fast lap starts or extends the span, and a slow lap at an index strictly
beyond `fastEnd + 1` breaks out of the loop. -/
def tempoScanAux (T : ℚ) : List ℚ → ℕ → Option (ℕ × ℕ) → Option (ℕ × ℕ)
  | [], _, st => st
  | p :: rest, i, st =>
    if p < T then
      match st with
      | none => tempoScanAux T rest (i + 1) (some (i, i))
      | some (s, _) => tempoScanAux T rest (i + 1) (some (s, i))
    else
      match st with
      | some (s, e) =>
        if i > e + 1 then some (s, e) else tempoScanAux T rest (i + 1) (some (s, e))
      | none => tempoScanAux T rest (i + 1) none

/-- The `tempo` result constructed at the end of `detectTempoBlock`: detail
`"<distance>km @ <pace>/km"` over `laps.slice(fastStart, fastEnd + 1)`. -/
def tempoBlockResult (laps : List ActivityLapRecord) (fastStart fastEnd : ℕ) :
    ClassificationResult :=
  let block := (laps.drop fastStart).take (fastEnd + 1 - fastStart)
  let tempoDistance := (block.map (·.distance)).sum
  let distKm := tempoDistance / 1000
  let avgPace := (block.map (·.moving_time)).sum / tempoDistance * 1000
  let paceMin : ℤ := ⌊avgPace / 60⌋
  let paceSec : ℤ := jsRound (avgPace - 60 * (paceMin : ℚ))
  ⟨RunType.tempo,
    some (toFixed1 distKm ++ "km @ " ++ toString paceMin ++ ":" ++
      pad2 paceSec ++ "/km"),
    Confidence.high⟩

/-- Source function `detectTempoBlock`: scan for a block of laps faster than
`easyPaceRef × 0.92`, require at least two laps in the span and a warmup or
cooldown outside it, and format the detail over the spanned laps. -/
def detectTempoBlock (laps : List ActivityLapRecord) (lapPaces : List ℚ)
    (easyPaceRef : ℚ) : Option ClassificationResult :=
  if laps.length < 3 then none
  else
    let fastThreshold := easyPaceRef * 0.92
    match tempoScanAux fastThreshold lapPaces 0 none with
    | none => none
    | some (fastStart, fastEnd) =>
      let fastLapCount := fastEnd + 1 - fastStart
      if fastLapCount < 2 then none
      else if fastStart = 0 ∧ fastEnd = lapPaces.length - 1 then none
      else some (tempoBlockResult laps fastStart fastEnd)

/-- Source function `detectAutoLaps`: two or fewer laps are automatic; otherwise the
laps are automatic iff all inner laps are within 120 m of 1000 m, or all inner laps
are within 150 m of 1609 m. -/
def detectAutoLaps (laps : List ActivityLapRecord) : Bool :=
  if laps.length ≤ 2 then true
  else
    let innerLaps := (laps.drop 1).dropLast
    if innerLaps.length = 0 then true
    else
      let distances := innerLaps.map (·.distance)
      let allKm := distances.all (fun d => decide (|d - 1000| < 120))
      if allKm then true
      else
        let allMile := distances.all (fun d => decide (|d - 1609| < 150))
        if allMile then true else false

/-- Source function `classifyByPaceAndHr`: the pace/HR fallback.  `hr && hrZones`
in JavaScript is falsy when the average heart rate is `null` or `0`. -/
def classifyByPaceAndHr (activity : ActivityData) (hrZones : Option HrZones)
    (easyPaceRef : ℚ) : ClassificationResult :=
  let paceSecKm := if activity.distance > 0 then
      activity.moving_time / activity.distance * 1000
    else easyPaceRef
  let distKm := activity.distance / 1000
  let hrZone : Option ℕ :=
    match activity.average_heartrate, hrZones with
    | some hr, some zones => if hr = 0 then none else some (getHrZone hr zones)
    | _, _ => none
  if paceSecKm > easyPaceRef * 1.05 then
    if (match hrZone with | some z => decide (z ≤ 2) | none => false) then
      ⟨RunType.recovery, none, Confidence.medium⟩
    else ⟨RunType.easy, none, Confidence.low⟩
  else if paceSecKm ≥ easyPaceRef * 0.95 then
    if distKm ≥ 15 then ⟨RunType.long_run, none, Confidence.medium⟩
    else ⟨RunType.easy, none, Confidence.medium⟩
  else if (match hrZone with | some z => decide (4 ≤ z) | none => false) then
    ⟨RunType.threshold, none, Confidence.medium⟩
  else if hrZone = some 3 then ⟨RunType.tempo, none, Confidence.medium⟩
  else if distKm ≥ 15 then ⟨RunType.long_run, none, Confidence.low⟩
  else ⟨RunType.unknown, none, Confidence.low⟩

/-- Source function `classifyAutoLapRun` delegates to the pace/HR fallback. -/
def classifyAutoLapRun (activity : ActivityData) (hrZones : Option HrZones)
    (easyPaceRef : ℚ) : ClassificationResult :=
  classifyByPaceAndHr activity hrZones easyPaceRef

/-- The per-lap pace list `lapPaces` computed by `classifyStructuredLapRun`. -/
def lapPacesOf (laps : List ActivityLapRecord) : List ℚ :=
  laps.map (fun l => if l.distance > 0 then l.moving_time / l.distance * 1000 else 0)

/-- Source function `classifyStructuredLapRun`: progression check, work/rest split
at 92 % of the median pace, tempo-block rescue when fewer than two work laps,
alternation check, then the regularity (CV) split into intervals vs fartlek. -/
def classifyStructuredLapRun (activity : ActivityData) (laps : List ActivityLapRecord)
    (hrZones : Option HrZones) (easyPaceRef : ℚ) : ClassificationResult :=
  if laps.length < 3 then classifyByPaceAndHr activity hrZones easyPaceRef
  else
    let lapPaces := lapPacesOf laps
    if isProgression lapPaces then ⟨RunType.progression, none, Confidence.high⟩
    else
      let medianPace := getMedian lapPaces
      let workThreshold := medianPace * 0.92
      let idx := List.range laps.length
      let workLaps := idx.filter (fun i => decide (lapPaces.getD i 0 ≤ workThreshold))
      let restLaps := idx.filter (fun i => ! decide (lapPaces.getD i 0 ≤ workThreshold))
      if workLaps.length < 2 then
        match detectTempoBlock laps lapPaces easyPaceRef with
        | some r => r
        | none => classifyByPaceAndHr activity hrZones easyPaceRef
      else if ¬ isAlternatingPattern workLaps restLaps then
        classifyByPaceAndHr activity hrZones easyPaceRef
      else
        let workDistances := workLaps.map (fun i => (laps.getD i default).distance)
        if coefficientOfVariation_lt_015 workDistances then
          ⟨RunType.intervals, some (formatIntervalDetail workLaps laps), Confidence.high⟩
        else
          ⟨RunType.fartlek, some (formatFartlekDetail workLaps restLaps laps), Confidence.high⟩

/-- Source function `classifyRun`: race override on `workout_type = 1`, then the
no-laps fallback, the auto-lap fallback, and structured analysis. -/
def classifyRun (activity : ActivityData) (laps : List ActivityLapRecord)
    (hrZones : Option HrZones) (easyPaceRef : ℚ) : ClassificationResult :=
  if activity.workout_type = some 1 then ⟨RunType.race, none, Confidence.high⟩
  else if laps.length = 0 then classifyByPaceAndHr activity hrZones easyPaceRef
  else if detectAutoLaps laps then classifyAutoLapRun activity hrZones easyPaceRef
  else classifyStructuredLapRun activity laps hrZones easyPaceRef

/-! ## Segment search (from `src/tools/best-efforts.ts`) -/

def DISTANCE_TOLERANCE : ℚ := 50

/-- Source table `MIN_REALISTIC_PACE_PER_KM` as a lookup combined with the `|| 3 * 60` fallback used
at its single call site in `computeEfforts`. -/
def MIN_REALISTIC_PACE_PER_KM (meters : ℚ) : ℚ :=
  if meters = 1000 then 2.5 * 60
  else if meters = 5000 then 3.0 * 60
  else if meters = 10000 then 3.0 * 60
  else if meters = 21097 then 3.0 * 60
  else if meters = 42195 then 3.0 * 60
  else 3 * 60

structure ActivityStream where
  time : List ℚ
  distance : List ℚ
deriving DecidableEq, Repr

/-- Internal state of the sliding-window search: the running best window
(`bestTime` is the normalized time; `none` plays the role of `Infinity`). -/
structure SegCand where
  bestTime : ℚ
  bestDistance : ℚ
  bestStartIdx : ℕ
  bestEndIdx : ℕ
deriving DecidableEq, Repr

/-- The `while` loop of `findFastestSegment`: advance `startIdx` while it is below
`endIdx` and the window distance exceeds `targetDistance + DISTANCE_TOLERANCE`. -/
def advanceStart (dist : List ℚ) (targetDistance : ℚ) (e : ℕ) (s : ℕ) : ℕ :=
  if h : s < e ∧ dist.getD e 0 - dist.getD s 0 > targetDistance + DISTANCE_TOLERANCE then
    advanceStart dist targetDistance e (s + 1)
  else s
termination_by e - s
decreasing_by omega

/-- One iteration of the `for` loop of `findFastestSegment` at right endpoint `e`:
advance the left pointer, then record the window if it qualifies and improves. -/
def segStep (time dist : List ℚ) (targetDistance : ℚ)
    (st : ℕ × Option SegCand) (e : ℕ) : ℕ × Option SegCand :=
  let s := advanceStart dist targetDistance e st.1
  let segmentDistance := dist.getD e 0 - dist.getD s 0
  if segmentDistance ≥ targetDistance - DISTANCE_TOLERANCE then
    let segmentTime := time.getD e 0 - time.getD s 0
    let normalizedTime := segmentTime / segmentDistance * targetDistance
    match st.2 with
    | none => (s, some ⟨normalizedTime, segmentDistance, s, e⟩)
    | some b =>
      if normalizedTime < b.bestTime then (s, some ⟨normalizedTime, segmentDistance, s, e⟩)
      else (s, some b)
  else (s, st.2)

/-- State of the sweep of `findFastestSegment` after processing the right
endpoints `0, …, k-1`. -/
def sweepState (time dist : List ℚ) (targetDistance : ℚ) (k : ℕ) :
    ℕ × Option SegCand :=
  (List.range k).foldl (segStep time dist targetDistance) (0, none)

/-- The full sweep of `findFastestSegment` over all right endpoints. -/
def segSweep (time dist : List ℚ) (targetDistance : ℚ) : ℕ × Option SegCand :=
  sweepState time dist targetDistance dist.length

/-- The left pointer used when the sweep evaluates right endpoint `e`: the
monotone pointer carried from the previous endpoints, advanced for `e`. -/
def candStart (time dist : List ℚ) (targetDistance : ℚ) (e : ℕ) : ℕ :=
  advanceStart dist targetDistance e (sweepState time dist targetDistance e).1

structure SegResult where
  timeSeconds : ℤ
  distanceMeters : ℤ
  startIndex : ℕ
  endIndex : ℕ
deriving DecidableEq, Repr

/-- Source function `findFastestSegment`: `null` on an empty stream or when the
final cumulative distance is below the target; otherwise the two-pointer sweep,
returning the rounded best normalized time and window distance. -/
def findFastestSegment (stream : ActivityStream) (targetDistance : ℚ) : Option SegResult :=
  let dist := stream.distance
  if dist.length = 0 then none
  else if dist.getD (dist.length - 1) 0 < targetDistance then none
  else
    match (segSweep stream.time dist targetDistance).2 with
    | none => none
    | some b => some ⟨jsRound b.bestTime, jsRound b.bestDistance, b.bestStartIdx, b.bestEndIdx⟩

/-- The normalized time of the window from sample `s` to sample `e`, as defined in
the source (`windowTime / windowDistance × targetDistance`). -/
def windowNormTime (time dist : List ℚ) (targetDistance : ℚ) (s e : ℕ) : ℚ :=
  (time.getD e 0 - time.getD s 0) / (dist.getD e 0 - dist.getD s 0) * targetDistance

/-- A window qualifies for the tolerance band when its distance is within
`DISTANCE_TOLERANCE` of the target on either side. -/
def windowInBand (dist : List ℚ) (targetDistance : ℚ) (s e : ℕ) : Prop :=
  targetDistance - DISTANCE_TOLERANCE ≤ dist.getD e 0 - dist.getD s 0 ∧
    dist.getD e 0 - dist.getD s 0 ≤ targetDistance + DISTANCE_TOLERANCE

/-! ## Best-effort computation and merge (from `src/tools/best-efforts.ts`) -/

/-- The columns of a `best_efforts` row written by `upsertBestEffort`
(`computed_at`, a wall-clock date string, is not modelled). -/
structure BestEffortRecord where
  activity_id : ℕ
  distance_name : String
  distance_meters : ℚ
  elapsed_time : ℚ
  pace_per_km : ℚ
  start_index : ℕ
  end_index : ℕ
deriving DecidableEq, Repr

inductive EffortSource where
  | strava | computed
deriving DecidableEq, Repr

/-- The fields of `BestEffortResult` the merge and ranking depend on (display
strings — name, date, URL, formatted time — are not modelled). -/
structure BestEffortResult where
  activityId : ℕ
  segmentTimeSeconds : ℚ
  segmentDistanceMeters : ℚ
  source : EffortSource
deriving DecidableEq, Repr

/-- The row slice of `activities` read by `computeEfforts`' SQL query. -/
structure RunRow where
  id : ℕ
  distance : ℚ
  moving_time : ℚ
deriving DecidableEq, Repr

/-- The per-activity loop body of `computeEfforts`: fetch the stream (skip on
`null`), run the segment search (skip on `null`), discard paces below the realism
floor, otherwise persist a `best_efforts` row and report a computed result. -/
def computeEffortsLoop (fetchStream : ℕ → Option ActivityStream) (dbName : String)
    (meters : ℚ) : List RunRow → List BestEffortRecord × List BestEffortResult
  | [] => ([], [])
  | run :: rest =>
    match fetchStream run.id with
    | none => computeEffortsLoop fetchStream dbName meters rest
    | some stream =>
      match findFastestSegment stream meters with
      | none => computeEffortsLoop fetchStream dbName meters rest
      | some segment =>
        let pacePerKm := (segment.timeSeconds : ℚ) / (segment.distanceMeters : ℚ) * 1000
        let minPace := MIN_REALISTIC_PACE_PER_KM meters
        if pacePerKm < minPace then computeEffortsLoop fetchStream dbName meters rest
        else
          let tailResult := computeEffortsLoop fetchStream dbName meters rest
          (⟨run.id, dbName, meters, (segment.timeSeconds : ℚ), pacePerKm,
              segment.startIndex, segment.endIndex⟩ :: tailResult.1,
            ⟨run.id, (segment.timeSeconds : ℚ), (segment.distanceMeters : ℚ),
              EffortSource.computed⟩ :: tailResult.2)

/-- Source function `computeEfforts`: query runs with `distance ≥ meters` (already
ordered by date), loop, then sort the reported efforts by segment time ascending
and truncate.  Returns `(persisted best_efforts rows, reported results)`. -/
def computeEfforts (runs : List RunRow) (fetchStream : ℕ → Option ActivityStream)
    (dbName : String) (meters : ℚ) (limit : ℕ) :
    List BestEffortRecord × List BestEffortResult :=
  let rows := runs.filter (fun r => decide (r.distance ≥ meters))
  let result := computeEffortsLoop fetchStream dbName meters rows
  (result.1,
    (result.2.mergeSort (fun a b => a.segmentTimeSeconds ≤ b.segmentTimeSeconds)).take limit)

/-- JavaScript `Map.set` on an insertion-ordered association list: an existing
key keeps its position and gets the new value, a new key is appended. -/
def mapSet (m : List (ℕ × BestEffortResult)) (k : ℕ) (v : BestEffortResult) :
    List (ℕ × BestEffortResult) :=
  if m.any (fun p => decide (p.1 = k)) then
    m.map (fun p => if p.1 = k then (k, v) else p)
  else m ++ [(k, v)]

/-- The `byActivity` map built by `mergeEfforts`: Strava records inserted first
(so they take priority), computed records added only for unseen activity ids. -/
def mergedByActivity (strava computed : List BestEffortResult) :
    List (ℕ × BestEffortResult) :=
  let byActivity := strava.foldl (fun m e => mapSet m e.activityId e) []
  computed.foldl
    (fun m e => if m.any (fun p => decide (p.1 = e.activityId)) then m
      else m ++ [(e.activityId, e)]) byActivity

/-- Source function `mergeEfforts`: keyed by activity id, Strava records inserted
first take priority, computed records fill the gaps; the values are then sorted by
elapsed segment time ascending (JavaScript's stable sort) and truncated. -/
def mergeEfforts (strava computed : List BestEffortResult) (limit : ℕ) :
    List BestEffortResult :=
  let merged := (mergedByActivity strava computed).map (·.2)
  (merged.mergeSort (fun a b => a.segmentTimeSeconds ≤ b.segmentTimeSeconds)).take limit

/-! ## Activities table and summary upsert (from `activities-db.ts` / `strava.ts`) -/

/-- A provider activity as typed in `src/types/index.ts` (`StravaActivity`); the
optional `trainer` flag is stored through `activity.trainer ? 1 : 0`, so it is
modelled as `Bool`. -/
structure StravaActivity where
  id : ℕ
  name : String
  type : String
  sport_type : String
  start_date : String
  start_date_local : String
  distance : ℚ
  moving_time : ℚ
  elapsed_time : ℚ
  total_elevation_gain : ℚ
  average_speed : ℚ
  max_speed : ℚ
  average_heartrate : Option ℚ
  max_heartrate : Option ℚ
  suffer_score : Option ℚ
  average_cadence : Option ℚ
  workout_type : Option ℤ
  description : Option String
  trainer : Bool
  start_latlng : Option (ℚ × ℚ)
deriving DecidableEq, Repr

/-- One row of the `activities` table (schema in `initDatabase`), including the
migrated columns `detail_fetched` (default 0), `run_type` and `run_type_detail`
(default NULL). -/
structure ActivityRow where
  id : ℕ
  name : String
  type : String
  sport_type : String
  start_date : String
  start_date_local : String
  distance : ℚ
  moving_time : ℚ
  elapsed_time : ℚ
  total_elevation_gain : ℚ
  average_speed : ℚ
  max_speed : ℚ
  average_heartrate : Option ℚ
  max_heartrate : Option ℚ
  suffer_score : Option ℚ
  average_cadence : Option ℚ
  workout_type : Option ℤ
  description : Option String
  trainer : Bool
  detail_fetched : Bool
  start_latitude : Option ℚ
  start_longitude : Option ℚ
  run_type : Option RunType
  run_type_detail : Option String
deriving DecidableEq, Repr

/-- The row written by the `INSERT OR REPLACE INTO activities (...)` statement of
`upsertActivities`.  The statement lists only the provider columns, so by SQLite's
`OR REPLACE` semantics the unlisted columns receive their column defaults:
`detail_fetched = 0`, `run_type = NULL`, `run_type_detail = NULL`. -/
def rowOfActivity (a : StravaActivity) : ActivityRow :=
  { id := a.id, name := a.name, type := a.type, sport_type := a.sport_type,
    start_date := a.start_date, start_date_local := a.start_date_local,
    distance := a.distance, moving_time := a.moving_time,
    elapsed_time := a.elapsed_time, total_elevation_gain := a.total_elevation_gain,
    average_speed := a.average_speed, max_speed := a.max_speed,
    average_heartrate := a.average_heartrate, max_heartrate := a.max_heartrate,
    suffer_score := a.suffer_score, average_cadence := a.average_cadence,
    workout_type := a.workout_type, description := a.description,
    trainer := a.trainer, detail_fetched := false,
    start_latitude := a.start_latlng.map Prod.fst,
    start_longitude := a.start_latlng.map Prod.snd,
    run_type := none, run_type_detail := none }

/-- SQLite `INSERT OR REPLACE` keyed by the primary key `id`: a conflicting row is
replaced wholesale, otherwise the row is inserted. -/
def replaceOrInsertRow (table : List ActivityRow) (row : ActivityRow) : List ActivityRow :=
  if table.any (fun r => decide (r.id = row.id)) then
    table.map (fun r => if r.id = row.id then row else r)
  else table ++ [row]

/-- Source function `upsertActivities`: upsert every batch activity by
identity inside one transaction. -/
def upsertActivities (activities : List StravaActivity) (table : List ActivityRow) :
    List ActivityRow :=
  activities.foldl (fun t a => replaceOrInsertRow t (rowOfActivity a)) table

/-- Source function `setRunType`: point update of the classification
columns of one activity. -/
def setRunType (activityId : ℕ) (runType : RunType) (runTypeDetail : Option String)
    (table : List ActivityRow) : List ActivityRow :=
  table.map (fun r => if r.id = activityId then
    { r with run_type := some runType, run_type_detail := runTypeDetail } else r)

/-- The WHERE clause of `getActivitiesWithoutDetail`: outdoor runs whose detail has
not been fetched yet. -/
def eligibleForDetail (r : ActivityRow) : Bool :=
  decide (r.type = "Run") && !r.trainer && !r.detail_fetched

/-! ## Detail backfill (from `stravaSyncTool` in `strava.ts`) -/

/-- A lap as returned by the provider detail API (`StravaLap` in the types). -/
structure StravaLap where
  id : ℕ
  lap_index : ℕ
  distance : ℚ
  elapsed_time : ℚ
  moving_time : ℚ
  average_speed : ℚ
  max_speed : ℚ
  average_heartrate : Option ℚ
  max_heartrate : Option ℚ
  start_index : ℕ
  end_index : ℕ
deriving DecidableEq, Repr

/-- A provider-native best effort as returned by the detail API. -/
structure StravaBestEffort where
  id : ℕ
  name : String
  elapsed_time : ℚ
  moving_time : ℚ
  distance : ℚ
  start_date_local : String
  start_index : ℕ
  end_index : ℕ
  pr_rank : Option ℕ
deriving DecidableEq, Repr

/-- One row of the `strava_best_efforts` table (`fetched_at`, a wall-clock date,
is not modelled). -/
structure StravaBestEffortRecord where
  strava_effort_id : ℕ
  activity_id : ℕ
  distance_name : String
  distance_meters : ℚ
  elapsed_time : ℚ
  moving_time : ℚ
  pace_per_km : ℚ
  start_index : ℕ
  end_index : ℕ
  pr_rank : Option ℕ
deriving DecidableEq, Repr

/-- Source table `STRAVA_DISTANCE_NAME_MAP` from `strava/client.ts`. -/
def STRAVA_DISTANCE_NAME_MAP (name : String) : Option String :=
  if name = "400m" then some "400M"
  else if name = "1/2 mile" then some "800M"
  else if name = "1K" then some "1K"
  else if name = "1 mile" then some "1MILE"
  else if name = "2 mile" then some "2MILE"
  else if name = "5K" then some "5K"
  else if name = "10K" then some "10K"
  else if name = "15K" then some "15K"
  else if name = "10 mile" then some "10MILE"
  else if name = "20K" then some "20K"
  else if name = "Half-Marathon" then some "HALF"
  else if name = "30K" then some "30K"
  else if name = "Marathon" then some "MARATHON"
  else none

/-- Source function `convertStravaBestEfforts` from `strava/client.ts`: efforts with an unmapped
name are skipped. -/
def convertStravaBestEfforts (activityId : ℕ) (efforts : List StravaBestEffort) :
    List StravaBestEffortRecord :=
  efforts.filterMap (fun effort =>
    match STRAVA_DISTANCE_NAME_MAP effort.name with
    | none => none
    | some distanceName =>
      some ⟨effort.id, activityId, distanceName, effort.distance, effort.elapsed_time,
        effort.moving_time, effort.elapsed_time / effort.distance * 1000,
        effort.start_index, effort.end_index, effort.pr_rank⟩)

/-- The lap-record mapping inlined in `stravaSyncTool`'s backfill loops. -/
def toLapRecord (activity_id : ℕ) (lap : StravaLap) : ActivityLapRecord :=
  ⟨activity_id, lap.lap_index, lap.distance, lap.elapsed_time, lap.moving_time,
    lap.average_speed, lap.max_speed, lap.average_heartrate, lap.max_heartrate,
    lap.start_index, lap.end_index⟩

/-- The persistent store touched by the backfill loop. -/
structure Db where
  activities : List ActivityRow
  activity_laps : List ActivityLapRecord
  strava_best_efforts : List StravaBestEffortRecord
deriving DecidableEq, Repr

/-- Source function `upsertActivityLaps`: SQLite `INSERT OR REPLACE` keyed by `UNIQUE(activity_id,
lap_index)`; the bound `$activity_id` is the function argument. -/
def upsertLapRow (activityId : ℕ) (rows : List ActivityLapRecord)
    (r : ActivityLapRecord) : List ActivityLapRecord :=
  let r' := { r with activity_id := activityId }
  if rows.any (fun x => decide (x.activity_id = activityId) && decide (x.lap_index = r.lap_index)) then
    rows.map (fun x =>
      if x.activity_id = activityId ∧ x.lap_index = r.lap_index then r' else x)
  else rows ++ [r']

def upsertActivityLaps (activityId : ℕ) (laps : List ActivityLapRecord) (db : Db) : Db :=
  { db with activity_laps := laps.foldl (upsertLapRow activityId) db.activity_laps }

/-- Source function `upsertStravaBestEfforts`: SQLite `INSERT OR REPLACE` keyed by
`UNIQUE(activity_id, distance_name)`. -/
def upsertStravaEffortRow (rows : List StravaBestEffortRecord)
    (r : StravaBestEffortRecord) : List StravaBestEffortRecord :=
  if rows.any (fun x => decide (x.activity_id = r.activity_id) && decide (x.distance_name = r.distance_name)) then
    rows.map (fun x =>
      if x.activity_id = r.activity_id ∧ x.distance_name = r.distance_name then r else x)
  else rows ++ [r]

def upsertStravaBestEfforts (records : List StravaBestEffortRecord) (db : Db) : Db :=
  { db with strava_best_efforts := records.foldl upsertStravaEffortRow db.strava_best_efforts }

/-- Source function `markActivityDetailFetched`. -/
def markActivityDetailFetched (activityId : ℕ) (db : Db) : Db :=
  { db with activities := db.activities.map (fun r =>
      if r.id = activityId then { r with detail_fetched := true } else r) }

/-- Source function `getActivitiesWithoutDetail`: outdoor runs without
detail, newest first (SQLite orders the TEXT date column by byte comparison,
which agrees with lexicographic string order on ISO dates), bounded. -/
def getActivitiesWithoutDetail (limit : ℕ) (db : Db) : List ActivityRow :=
  ((db.activities.filter eligibleForDetail).mergeSort
    (fun a b => decide (b.start_date_local ≤ a.start_date_local))).take limit

/-- Outcome of one `fetchActivityDetail` call: the parsed detail, a thrown
`RATE_LIMITED` error (HTTP 429), or any other thrown error. -/
inductive FetchOutcome where
  | ok (bestEfforts : List StravaBestEffort) (laps : List StravaLap)
  | rateLimited
  | failed
deriving DecidableEq, Repr

/-- The historical-backfill `for` loop of `stravaSyncTool`: persist efforts and
laps when nonempty, mark the activity detail-fetched and count it; a
`RATE_LIMITED` error breaks out of the loop, any other error is swallowed and the
loop continues.  Returns the store and the number of processed activities. -/
def backfillLoop (fetchDetail : ℕ → FetchOutcome) :
    List ActivityRow → Db → ℕ → Db × ℕ
  | [], db, count => (db, count)
  | activity :: rest, db, count =>
    match fetchDetail activity.id with
    | FetchOutcome.rateLimited => (db, count)
    | FetchOutcome.failed => backfillLoop fetchDetail rest db count
    | FetchOutcome.ok bestEfforts laps =>
      let db1 := if bestEfforts.length > 0 then
          upsertStravaBestEfforts (convertStravaBestEfforts activity.id bestEfforts) db
        else db
      let db2 := if laps.length > 0 then
          upsertActivityLaps activity.id (laps.map (toLapRecord activity.id)) db1
        else db1
      let db3 := markActivityDetailFetched activity.id db2
      backfillLoop fetchDetail rest db3 (count + 1)

/-! ## Fetch-window determination (from `stravaSyncTool` in `strava.ts`) -/

/-- The `after` epoch computation at the top of `stravaSyncTool`; the stored
cursor (`Math.floor(new Date(latestDate).getTime() / 1000)`) is modelled directly
as epoch seconds. -/
def computeAfter (incremental : Bool) (latestDate : Option ℤ) (now days : ℤ) : ℤ :=
  if incremental then
    match latestDate with
    | some cursor => cursor - 1
    | none => now - 180 * 24 * 60 * 60
  else now - days * 24 * 60 * 60

/-- The provider's listing endpoint is queried with `?after=...` and returns the
activities whose start timestamp is strictly after that epoch. -/
def fetchWindowContains (after start : ℤ) : Prop := after < start

set_option maxRecDepth 4000

/-! ## Concrete fixtures used by the theorems -/

/-- Helper to build a lap with the fields the classifier reads. -/
def mkLap (i : ℕ) (d t : ℚ) : ActivityLapRecord :=
  ⟨7, i, d, t, t, 0, 0, none, none, 0, 0⟩

/-- Confirmed heart-rate zones used by the classifier fixtures. -/
def exZones : HrZones := ⟨160, 175, 190, true⟩

/-- Seven equal-length laps whose paces are fast, fast, slow, slow, fast, fast,
fast (240 s/km vs 420 s/km): the first fast block has two laps, the longest fast
block is the final three laps. -/
def tempoLaps : List ActivityLapRecord :=
  [mkLap 0 1000 240, mkLap 1 1000 240, mkLap 2 1000 420, mkLap 3 1000 420,
   mkLap 4 1000 240, mkLap 5 1000 240, mkLap 6 1000 240]

/-- Six laps of exactly 1 km with alternating 240/420 s/km paces. -/
def altKmLaps : List ActivityLapRecord :=
  [mkLap 0 1000 240, mkLap 1 1000 420, mkLap 2 1000 240, mkLap 3 1000 420,
   mkLap 4 1000 240, mkLap 5 1000 420]

/-- Summary metrics of the six-lap alternating activity (no race marker). -/
def altKmActivity : ActivityData := ⟨5, 6000, 1980, 0, none, none⟩

/-- A 14-lap interval session: 2 km warmup, six repetitions of a 1 km work lap
(240 s/km) followed by a 300 m jog (420 s/km), and a 1.5 km cooldown. -/
def intervalSessionLaps : List ActivityLapRecord :=
  [mkLap 0 2000 840,
   mkLap 1 1000 240, mkLap 2 300 126,
   mkLap 3 1000 240, mkLap 4 300 126,
   mkLap 5 1000 240, mkLap 6 300 126,
   mkLap 7 1000 240, mkLap 8 300 126,
   mkLap 9 1000 240, mkLap 10 300 126,
   mkLap 11 1000 240, mkLap 12 300 126,
   mkLap 13 1500 630]

/-- Summary metrics of the 14-lap session (no race marker). -/
def intervalSessionActivity : ActivityData := ⟨6, 11300, 4026, 0, none, none⟩

/-- The same session shape with visibly irregular work-lap distances
(600/1400 m alternating at the same 240 s/km work pace). -/
def fartlekSessionLaps : List ActivityLapRecord :=
  [mkLap 0 2000 840,
   mkLap 1 600 144, mkLap 2 300 126,
   mkLap 3 1400 336, mkLap 4 300 126,
   mkLap 5 600 144, mkLap 6 300 126,
   mkLap 7 1400 336, mkLap 8 300 126,
   mkLap 9 600 144, mkLap 10 300 126,
   mkLap 11 1400 336, mkLap 12 300 126,
   mkLap 13 1500 630]

/-- Four laps whose two inner laps sit in different auto-lap bands: one at
exactly 1000 m and one at exactly 1609 m. -/
def mixedInnerLaps : List ActivityLapRecord :=
  [mkLap 0 500 150, mkLap 1 1000 300, mkLap 2 1609 480, mkLap 3 400 120]

/-- A provider activity used by the upsert fixtures. -/
def c1Activity : StravaActivity :=
  ⟨1, "Morning Run", "Run", "Run", "2025-01-01T10:00:00Z", "2025-01-01T10:00:00",
    10000, 3000, 3100, 50, 3.3, 4.0, some 140, some 160, none, none, none, none,
    false, none⟩

/-- The same activity as already stored, after detail fetch and classification. -/
def c1StoredRow : ActivityRow :=
  { rowOfActivity c1Activity with
    run_type := some RunType.tempo,
    run_type_detail := some "5.0km @ 4:00/km",
    detail_fetched := true }

/-- Time samples of a stream with a slow first kilometre-tenth and a fast rest. -/
def exTime : List ℚ := [0, 1000, 1010]

/-- Distance samples paired with `exTime`. -/
def exDistance : List ℚ := [0, 100, 1050]

/-- Provider-native best efforts for the merge fixture. -/
def c9strava : List BestEffortResult :=
  [⟨1, 200, 1000, EffortSource.strava⟩, ⟨2, 250, 1000, EffortSource.strava⟩]

/-- Computed best efforts for the merge fixture; activity 1 appears in both. -/
def c9computed : List BestEffortResult :=
  [⟨1, 190, 1000, EffortSource.computed⟩, ⟨3, 220, 1000, EffortSource.computed⟩]

/-- An outdoor-run activity row still missing detail, used by the backfill
fixture. -/
def backRow (i : ℕ) (d : String) : ActivityRow :=
  { rowOfActivity c1Activity with id := i, start_date_local := d }

/-- A store with three detail-less outdoor runs. -/
def c8db : Db := ⟨[backRow 1 "2025-01-01", backRow 2 "2025-01-02",
  backRow 3 "2025-01-03"], [], []⟩

/-- A provider lap returned by the detail fixture. -/
def c8lap : StravaLap := ⟨9, 0, 1000, 240, 240, 4, 5, none, none, 0, 100⟩

/-- A provider best effort returned by the detail fixture. -/
def c8effort : StravaBestEffort := ⟨77, "1K", 200, 200, 1000, "2025-01-03", 0, 100, some 1⟩

/-- Detail fetches succeed except for activity 2, which hits the rate limit. -/
def c8fetch : ℕ → FetchOutcome :=
  fun i => if i = 2 then FetchOutcome.rateLimited else FetchOutcome.ok [c8effort] [c8lap]

/-! ## C1 — summary upsert and the locally-owned classification fields -/

/-- C1: the claim states that `upsertActivities` never overwrites the locally-owned
`run_type` / `run_type_detail` fields of an already-stored row.  The code uses
`INSERT OR REPLACE` listing only provider columns, which in SQLite deletes the
conflicting row and re-inserts it with column defaults for the unlisted columns:
re-upserting an already-classified activity resets `run_type` and
`run_type_detail` to `NULL` (and `detail_fetched` to `0`).  This theorem evaluates
the model at that failing input. -/
theorem upsertActivities_wipes_run_type :
    c1StoredRow.run_type = some RunType.tempo ∧
    c1StoredRow.run_type_detail = some "5.0km @ 4:00/km" ∧
    c1StoredRow.id = c1Activity.id ∧
    (upsertActivities [c1Activity] [c1StoredRow]).map
      (fun r => (r.id, r.run_type, r.run_type_detail, r.detail_fetched)) =
      [(1, none, none, false)] := by
  refine ⟨rfl, rfl, rfl, ?_⟩
  with_unfolding_all decide

/-! ## C3 — incremental fetch window -/

/-- C3 (counterexample): with a cursor at epoch second 1000, the code requests
`after = 999`, so the boundary activity itself (start = 1000, not strictly newer
than the cursor) lies inside the requested window and is re-fetched. -/
theorem incremental_fetch_window_includes_boundary :
    computeAfter true (some 1000) 100000 30 = 999 ∧
    fetchWindowContains (computeAfter true (some 1000) 100000 30) 1000 := by
  constructor
  · rfl
  · show (999 : ℤ) < 1000
    with_unfolding_all decide

/-- C3 (amended): in incremental mode with a cursor the orchestrator requests
activities newer than one second before the cursor — hence the boundary activity
is inside the window — and with no cursor it requests a 180-day window. -/
theorem computeAfter_cursor_behavior :
    ∀ cursor now days : ℤ,
      computeAfter true (some cursor) now days = cursor - 1 ∧
      fetchWindowContains (computeAfter true (some cursor) now days) cursor ∧
      computeAfter true none now days = now - 180 * 24 * 60 * 60 := by
  intro cursor now days
  refine ⟨rfl, ?_, rfl⟩
  show computeAfter true (some cursor) now days < cursor
  have h : computeAfter true (some cursor) now days = cursor - 1 := rfl
  rw [h]
  omega

/-! ## C5 — alternating-lap interval classification -/

/-- C5 (counterexample): an activity of exactly six laps of 1 km each with
alternating fast/slow paces, no race marker, and work-lap distance CV `0 < 0.15`
is auto-lap-detected (all inner laps are within 120 m of 1000 m) and classified by
the pace/HR fallback as `easy`, not as `intervals` with detail `"6x1km"`. -/
theorem six_km_laps_fall_to_fallback :
    altKmLaps.length = 6 ∧
    (∀ l ∈ altKmLaps, l.distance = 1000) ∧
    altKmActivity.workout_type = none ∧
    detectAutoLaps altKmLaps = true ∧
    classifyRun altKmActivity altKmLaps (some exZones) 300 =
      ⟨RunType.easy, none, Confidence.low⟩ := by
  refine ⟨rfl, ?_, rfl, by with_unfolding_all decide, by with_unfolding_all decide⟩
  with_unfolding_all decide

/-- C5 (amended): when the six ~1 km work laps alternate with short recovery jogs
(so the inner laps are not uniformly near 1 km and the lap structure survives
auto-lap detection), the classifier returns `intervals` with detail `"6x1km"` for
regular work distances (CV < 0.15) and `fartlek` for irregular ones (CV ≥ 0.15). -/
theorem alternating_interval_session_classification :
    coefficientOfVariation_lt_015
      [(1000 : ℚ), 1000, 1000, 1000, 1000, 1000] = true ∧
    classifyRun intervalSessionActivity intervalSessionLaps (some exZones) 300 =
      ⟨RunType.intervals, some "6x1km", Confidence.high⟩ ∧
    coefficientOfVariation_lt_015 [(600 : ℚ), 1400, 600, 1400, 600, 1400] = false ∧
    classifyRun intervalSessionActivity fartlekSessionLaps (some exZones) 300 =
      ⟨RunType.fartlek, some "6x4/5min", Confidence.high⟩ := by
  refine ⟨by with_unfolding_all decide, by with_unfolding_all decide,
    by with_unfolding_all decide, by with_unfolding_all decide⟩

/-! ## C4 — tempo-block selection (counterexample part) -/

/-- C4 (counterexample): on seven equal laps with paces fast, fast, slow, slow,
fast, fast, fast (threshold 276 s/km at reference 300 s/km), the longest
contiguous run of fast laps is laps 4–6 (3 km), but the scan returns the first
block, laps 0–1, and formats the detail over those 2 km — not over the longest
block, whose detail would begin with "3.0km". -/
theorem detectTempoBlock_selects_first_block :
    detectTempoBlock tempoLaps (lapPacesOf tempoLaps) 300 =
      some ⟨RunType.tempo, some "2.0km @ 4:00/km", Confidence.high⟩ ∧
    ((lapPacesOf tempoLaps).drop 4).all (fun p => decide (p < 300 * 0.92)) = true ∧
    (((tempoLaps.drop 4).take 3).map (·.distance)).sum = 3000 ∧
    toFixed1 ((3000 : ℚ) / 1000) = "3.0" ∧ toFixed1 ((2000 : ℚ) / 1000) = "2.0" := by
  refine ⟨by with_unfolding_all decide, by with_unfolding_all decide,
    by norm_num [tempoLaps, mkLap], by with_unfolding_all decide,
    by with_unfolding_all decide⟩

/-! ## C6 — auto-lap detection -/

/-- C6 (counterexample): four laps whose inner laps are 1000 m and 1609 m.  Every
inner lap is within ±120 m of 1000 m or within ±150 m of one mile (each in its own
band), yet the laps are not treated as automatic: the code requires all inner laps
to sit in the same band. -/
theorem detectAutoLaps_mixed_inner_bands :
    (∀ l ∈ (mixedInnerLaps.drop 1).dropLast,
      |l.distance - 1000| < 120 ∨ |l.distance - 1609| < 150) ∧
    mixedInnerLaps.length = 4 ∧
    detectAutoLaps mixedInnerLaps = false := by
  refine ⟨by with_unfolding_all decide, rfl, by with_unfolding_all decide⟩

/-- C6 (amended): laps are automatic exactly when there are two or fewer laps, or
all inner laps are within 120 m of 1000 m, or all inner laps are within 150 m of
one mile (the band is chosen for the whole sequence, not per lap); automatic laps
always send the activity to the pace/HR fallback, regardless of pace variation,
whenever the race override does not fire. -/
theorem detectAutoLaps_characterization :
    (∀ laps : List ActivityLapRecord,
      detectAutoLaps laps = true ↔
        (laps.length ≤ 2 ∨
          (∀ d ∈ ((laps.drop 1).dropLast).map (fun l => l.distance), |d - 1000| < 120) ∨
          (∀ d ∈ ((laps.drop 1).dropLast).map (fun l => l.distance), |d - 1609| < 150))) ∧
    (∀ (activity : ActivityData) (laps : List ActivityLapRecord)
        (hrZones : Option HrZones) (easyPaceRef : ℚ),
      activity.workout_type ≠ some 1 → detectAutoLaps laps = true →
      classifyRun activity laps hrZones easyPaceRef =
        classifyByPaceAndHr activity hrZones easyPaceRef) := by
  constructor
  · intro laps
    simp only [detectAutoLaps]
    split_ifs with h1 h2 h3 h4
    · simp [h1]
    · exfalso
      rw [List.length_dropLast, List.length_drop] at h2
      omega
    · simp only [List.all_eq_true, List.mem_map, decide_eq_true_eq] at h3
      refine iff_of_true rfl (Or.inr (Or.inl ?_))
      intro d hd
      obtain ⟨l, hl, rfl⟩ := List.mem_map.mp hd
      exact h3 l.distance ⟨l, hl, rfl⟩
    · simp only [List.all_eq_true, List.mem_map, decide_eq_true_eq] at h4
      refine iff_of_true rfl (Or.inr (Or.inr ?_))
      intro d hd
      obtain ⟨l, hl, rfl⟩ := List.mem_map.mp hd
      exact h4 l.distance ⟨l, hl, rfl⟩
    · refine iff_of_false (by simp) ?_
      simp only [not_or]
      refine ⟨h1, ?_, ?_⟩
      · intro hall
        apply h3
        simp only [List.all_eq_true, List.mem_map, decide_eq_true_eq]
        rintro d ⟨l, hl, rfl⟩
        exact hall l.distance (List.mem_map.mpr ⟨l, hl, rfl⟩)
      · intro hall
        apply h4
        simp only [List.all_eq_true, List.mem_map, decide_eq_true_eq]
        rintro d ⟨l, hl, rfl⟩
        exact hall l.distance (List.mem_map.mpr ⟨l, hl, rfl⟩)
  · intro activity laps hrZones easyPaceRef hw hauto
    unfold classifyRun
    rw [if_neg hw]
    by_cases h0 : laps.length = 0
    · rw [if_pos h0]
    · rw [if_neg h0, if_pos hauto]
      rfl

/-! ## C10 — confidence levels -/

/-- Helper: every result of the pace/HR fallback has confidence `medium` or `low`
and a null detail. -/
theorem classifyByPaceAndHr_medium_or_low (a : ActivityData) (z : Option HrZones)
    (ref : ℚ) :
    (classifyByPaceAndHr a z ref).confidence ≠ Confidence.high ∧
    (classifyByPaceAndHr a z ref).run_type_detail = none := by
  simp only [classifyByPaceAndHr]
  split_ifs <;> simp

/-- Helper: a successful tempo-block detection returns `tempo` at `high`
confidence. -/
theorem detectTempoBlock_shape (laps : List ActivityLapRecord) (paces : List ℚ)
    (ref : ℚ) (r : ClassificationResult)
    (h : detectTempoBlock laps paces ref = some r) :
    r.run_type = RunType.tempo ∧ r.confidence = Confidence.high := by
  simp only [detectTempoBlock] at h
  split at h
  · exact absurd h (by simp)
  · split at h
    · exact absurd h (by simp)
    · split_ifs at h
      obtain rfl := Option.some.inj h
      exact ⟨rfl, rfl⟩

/-- Helper: structured-lap analysis either ends in the pace/HR fallback, or in a
successful tempo-block detection, or directly in one of the three high-confidence
structured types. -/
theorem classifyStructuredLapRun_cases (a : ActivityData)
    (laps : List ActivityLapRecord) (z : Option HrZones) (ref : ℚ) :
    classifyStructuredLapRun a laps z ref = classifyByPaceAndHr a z ref ∨
    (∃ r, detectTempoBlock laps (lapPacesOf laps) ref = some r ∧
      classifyStructuredLapRun a laps z ref = r) ∨
    ((classifyStructuredLapRun a laps z ref).run_type ∈
        [RunType.progression, RunType.intervals, RunType.fartlek] ∧
      (classifyStructuredLapRun a laps z ref).confidence = Confidence.high) := by
  simp only [classifyStructuredLapRun]
  split
  · left; rfl
  · split
    · right; right; simp
    · split
      · split
        · next r heq => right; left; exact ⟨r, heq, rfl⟩
        · left; rfl
      · split
        · left; rfl
        · split
          · right; right; simp
          · right; right; simp

/-- C10: `classifyRun` reports confidence `high` only for the provider race
marker (`workout_type = 1`) or for a structured-lap result (`progression`,
`intervals`, `fartlek`, or a tempo block); every result of the pace/HR fallback
has confidence `medium` or `low` and a null `run_type_detail`. -/
theorem classifyRun_confidence_invariant :
    ∀ (activity : ActivityData) (laps : List ActivityLapRecord)
      (hrZones : Option HrZones) (easyPaceRef : ℚ),
      ((classifyRun activity laps hrZones easyPaceRef).confidence = Confidence.high →
        activity.workout_type = some 1 ∨
        (classifyRun activity laps hrZones easyPaceRef).run_type ∈
          [RunType.progression, RunType.intervals, RunType.fartlek, RunType.tempo]) ∧
      (classifyByPaceAndHr activity hrZones easyPaceRef).confidence ≠ Confidence.high ∧
      (classifyByPaceAndHr activity hrZones easyPaceRef).run_type_detail = none := by
  intro a laps z ref
  have hfb := classifyByPaceAndHr_medium_or_low a z ref
  refine ⟨?_, hfb.1, hfb.2⟩
  intro hhigh
  by_cases hw : a.workout_type = some 1
  · exact Or.inl hw
  · right
    unfold classifyRun at hhigh ⊢
    rw [if_neg hw] at hhigh ⊢
    by_cases h0 : laps.length = 0
    · rw [if_pos h0] at hhigh
      exact absurd hhigh hfb.1
    · rw [if_neg h0] at hhigh ⊢
      by_cases hauto : detectAutoLaps laps = true
      · rw [if_pos hauto] at hhigh
        exact absurd hhigh hfb.1
      · rw [if_neg hauto] at hhigh ⊢
        rcases classifyStructuredLapRun_cases a laps z ref with hc | ⟨r, hr, hc⟩ | hc
        · rw [hc] at hhigh
          exact absurd hhigh hfb.1
        · rw [hc]
          have := detectTempoBlock_shape laps (lapPacesOf laps) ref r hr
          simp [this.1]
        · have := hc.1
          simp only [List.mem_cons, List.mem_singleton] at this ⊢
          tauto

/-! ## C7 — realism floor for computed best efforts -/

/-- Helper: every record persisted or reported by the per-activity loop of
`computeEfforts` carries an implied pace at or above the realism floor. -/
theorem computeEffortsLoop_realism (fetchStream : ℕ → Option ActivityStream)
    (dbName : String) (meters : ℚ) :
    ∀ rows : List RunRow,
      (∀ rec ∈ (computeEffortsLoop fetchStream dbName meters rows).1,
        MIN_REALISTIC_PACE_PER_KM meters ≤ rec.pace_per_km) ∧
      (∀ e ∈ (computeEffortsLoop fetchStream dbName meters rows).2,
        MIN_REALISTIC_PACE_PER_KM meters ≤
          e.segmentTimeSeconds / e.segmentDistanceMeters * 1000) := by
  intro rows
  induction rows with
  | nil => simp [computeEffortsLoop]
  | cons run rest ih =>
    simp only [computeEffortsLoop]
    rcases hs : fetchStream run.id with _ | stream
    · exact ih
    · dsimp only
      rcases hseg : findFastestSegment stream meters with _ | segment
      · exact ih
      · dsimp only
        by_cases hp : (segment.timeSeconds : ℚ) / (segment.distanceMeters : ℚ) * 1000 <
            MIN_REALISTIC_PACE_PER_KM meters
        · rw [if_pos hp]
          exact ih
        · rw [if_neg hp]
          constructor
          · intro rec hrec
            rcases List.mem_cons.mp hrec with rfl | htail
            · exact le_of_not_lt hp
            · exact ih.1 rec htail
          · intro e he
            rcases List.mem_cons.mp he with rfl | htail
            · exact le_of_not_lt hp
            · exact ih.2 e htail

/-- C7: a computed segment whose implied pace is faster than the per-distance
realism floor (150 s/km for 1 km, 180 s/km for 5 km and longer) is silently
skipped: every persisted `best_efforts` row and every reported result of
`computeEfforts` has an implied pace at or above the floor, and the skip produces
no error value — the function still returns its ordinary result lists. -/
theorem computeEfforts_realism_floor :
    ∀ (runs : List RunRow) (fetchStream : ℕ → Option ActivityStream)
      (dbName : String) (meters : ℚ) (limit : ℕ),
      (∀ rec ∈ (computeEfforts runs fetchStream dbName meters limit).1,
        MIN_REALISTIC_PACE_PER_KM meters ≤ rec.pace_per_km) ∧
      (∀ e ∈ (computeEfforts runs fetchStream dbName meters limit).2,
        MIN_REALISTIC_PACE_PER_KM meters ≤
          e.segmentTimeSeconds / e.segmentDistanceMeters * 1000) := by
  intro runs fetchStream dbName meters limit
  have hloop := computeEffortsLoop_realism fetchStream dbName meters
    (runs.filter (fun r => decide (r.distance ≥ meters)))
  constructor
  · intro rec hrec
    exact hloop.1 rec hrec
  · intro e he
    apply hloop.2 e
    have h1 : e ∈ ((computeEffortsLoop fetchStream dbName meters
        (runs.filter (fun r => decide (r.distance ≥ meters)))).2.mergeSort
          (fun a b => a.segmentTimeSeconds ≤ b.segmentTimeSeconds)) :=
      List.mem_of_mem_take he
    exact (List.mergeSort_perm _ _).mem_iff.mp h1

/-- C7 (witness): a 1 km effort at 300 s/km (pace 5:00/km) from a concrete
stream is persisted, and the theorem applies to it. -/
theorem computeEfforts_realism_floor_witness :
    MIN_REALISTIC_PACE_PER_KM 1000 ≤
      (⟨1, "1K", 1000, 300, 300, 0, 2⟩ : BestEffortRecord).pace_per_km :=
  (computeEfforts_realism_floor [⟨1, 5000, 1500⟩]
      (fun _ => some ⟨[0, 150, 300], [0, 500, 1000]⟩) "1K" 1000 5).1
    ⟨1, "1K", 1000, 300, 300, 0, 2⟩ (by with_unfolding_all decide)

/-! ## C9 — best-effort merge -/

/-- Helper: every entry of `mapSet m k v` is either the new pair `(k, v)` or an
old entry whose key differs from `k`. -/
theorem mapSet_mem (m : List (ℕ × BestEffortResult)) (k : ℕ) (v : BestEffortResult) :
    ∀ p ∈ mapSet m k v, p = (k, v) ∨ (p ∈ m ∧ p.1 ≠ k) := by
  intro p hp
  unfold mapSet at hp
  split_ifs at hp with hany
  · obtain ⟨q, hq, hpq⟩ := List.mem_map.mp hp
    by_cases hk : q.1 = k
    · rw [if_pos hk] at hpq
      exact Or.inl hpq.symm
    · rw [if_neg hk] at hpq
      exact Or.inr ⟨hpq ▸ hq, hpq ▸ hk⟩
  · rcases List.mem_append.mp hp with h | h
    · refine Or.inr ⟨h, ?_⟩
      intro hk
      exact hany (List.any_eq_true.mpr ⟨p, h, by simp [hk]⟩)
    · exact Or.inl (by simpa using h)

/-- Helper: the keys of `mapSet m k v` are the old keys (when `k` was present) or
the old keys with `k` appended (when it was absent). -/
theorem mapSet_keys (m : List (ℕ × BestEffortResult)) (k : ℕ) (v : BestEffortResult) :
    ((mapSet m k v).map Prod.fst = m.map Prod.fst ∧ k ∈ m.map Prod.fst) ∨
    ((mapSet m k v).map Prod.fst = m.map Prod.fst ++ [k] ∧ k ∉ m.map Prod.fst) := by
  unfold mapSet
  split_ifs with hany
  · left
    obtain ⟨q, hq, hqk⟩ := List.any_eq_true.mp hany
    constructor
    · rw [List.map_map]
      apply List.map_congr_left
      intro p _
      by_cases hk : p.1 = k
      · simp [hk]
      · simp [hk]
    · exact List.mem_map.mpr ⟨q, hq, by simpa using hqk⟩
  · right
    constructor
    · simp
    · intro hk
      obtain ⟨q, hq, hqk⟩ := List.mem_map.mp hk
      exact hany (List.any_eq_true.mpr ⟨q, hq, by simp [hqk]⟩)

/-- Helper: invariants of the Strava fold of `mergedByActivity`: unique keys,
every value a Strava record stored under its own activity id, old keys kept, and
every processed record's id present. -/
theorem foldl_mapSet_invariant (strava : List BestEffortResult) :
    ∀ (l : List BestEffortResult) (m : List (ℕ × BestEffortResult)),
      (∀ e ∈ l, e ∈ strava) →
      (m.map Prod.fst).Nodup →
      (∀ p ∈ m, p.2.activityId = p.1 ∧ p.2 ∈ strava) →
      ((l.foldl (fun m e => mapSet m e.activityId e) m).map Prod.fst).Nodup ∧
      (∀ p ∈ l.foldl (fun m e => mapSet m e.activityId e) m,
        p.2.activityId = p.1 ∧ p.2 ∈ strava) ∧
      (∀ a ∈ m.map Prod.fst,
        a ∈ (l.foldl (fun m e => mapSet m e.activityId e) m).map Prod.fst) ∧
      (∀ e ∈ l,
        e.activityId ∈ (l.foldl (fun m e => mapSet m e.activityId e) m).map Prod.fst) := by
  intro l
  induction l with
  | nil => intro m _ hnd hval; exact ⟨hnd, hval, fun a ha => ha, by simp⟩
  | cons e rest ih =>
    intro m hsub hnd hval
    have he : e ∈ strava := hsub e (List.mem_cons_self e rest)
    have hrest : ∀ x ∈ rest, x ∈ strava := fun x hx => hsub x (List.mem_cons_of_mem e hx)
    have hnd' : ((mapSet m e.activityId e).map Prod.fst).Nodup := by
      rcases mapSet_keys m e.activityId e with ⟨heq, _⟩ | ⟨heq, hnotin⟩
      · rw [heq]; exact hnd
      · rw [heq]
        refine List.Nodup.append hnd (List.nodup_singleton _) ?_
        intro a ha hb
        rw [List.mem_singleton] at hb
        exact hnotin (hb ▸ ha)
    have hval' : ∀ p ∈ mapSet m e.activityId e, p.2.activityId = p.1 ∧ p.2 ∈ strava := by
      intro p hp
      rcases mapSet_mem m e.activityId e p hp with rfl | ⟨hpm, _⟩
      · exact ⟨rfl, he⟩
      · exact hval p hpm
    have hmono : ∀ a ∈ m.map Prod.fst, a ∈ (mapSet m e.activityId e).map Prod.fst := by
      intro a ha
      rcases mapSet_keys m e.activityId e with ⟨heq, _⟩ | ⟨heq, _⟩
      · rw [heq]; exact ha
      · rw [heq]; exact List.mem_append_left _ ha
    have hkey : e.activityId ∈ (mapSet m e.activityId e).map Prod.fst := by
      rcases mapSet_keys m e.activityId e with ⟨heq, hin⟩ | ⟨heq, _⟩
      · rw [heq]; exact hin
      · rw [heq]; simp
    obtain ⟨ihnd, ihval, ihmono, ihkeys⟩ := ih (mapSet m e.activityId e) hrest hnd' hval'
    refine ⟨ihnd, ihval, ?_, ?_⟩
    · intro a ha
      exact ihmono a (hmono a ha)
    · intro x hx
      rcases List.mem_cons.mp hx with rfl | hx'
      · exact ihmono _ hkey
      · exact ihkeys x hx'

/-- Helper: invariants of the computed fold of `mergedByActivity`: unique keys,
value provenance (Strava, or computed with no Strava record for that id), key
monotonicity, and coverage of the processed computed records. -/
theorem foldl_computed_invariant (strava computed : List BestEffortResult) :
    ∀ (l : List BestEffortResult) (m : List (ℕ × BestEffortResult)),
      (∀ e ∈ l, e ∈ computed) →
      (m.map Prod.fst).Nodup →
      (∀ p ∈ m, p.2.activityId = p.1 ∧
        (p.2 ∈ strava ∨ (p.2 ∈ computed ∧ ∀ s ∈ strava, s.activityId ≠ p.1))) →
      (∀ s ∈ strava, s.activityId ∈ m.map Prod.fst) →
      (((l.foldl (fun m e => if m.any (fun p => decide (p.1 = e.activityId)) then m
          else m ++ [(e.activityId, e)]) m).map Prod.fst).Nodup ∧
       (∀ p ∈ l.foldl (fun m e => if m.any (fun p => decide (p.1 = e.activityId)) then m
          else m ++ [(e.activityId, e)]) m,
         p.2.activityId = p.1 ∧
         (p.2 ∈ strava ∨ (p.2 ∈ computed ∧ ∀ s ∈ strava, s.activityId ≠ p.1))) ∧
       (∀ a ∈ m.map Prod.fst,
         a ∈ (l.foldl (fun m e => if m.any (fun p => decide (p.1 = e.activityId)) then m
          else m ++ [(e.activityId, e)]) m).map Prod.fst) ∧
       (∀ e ∈ l,
         e.activityId ∈ (l.foldl (fun m e => if m.any (fun p => decide (p.1 = e.activityId)) then m
          else m ++ [(e.activityId, e)]) m).map Prod.fst)) := by
  intro l
  induction l with
  | nil => intro m _ hnd hval _; exact ⟨hnd, hval, fun a ha => ha, by simp⟩
  | cons e rest ih =>
    intro m hsub hnd hval hcov
    have he : e ∈ computed := hsub e (List.mem_cons_self e rest)
    have hrest : ∀ x ∈ rest, x ∈ computed := fun x hx => hsub x (List.mem_cons_of_mem e hx)
    simp only [List.foldl_cons]
    by_cases hany : (m.any (fun p => decide (p.1 = e.activityId))) = true
    · rw [if_pos hany]
      obtain ⟨ihnd, ihval, ihmono, ihkeys⟩ := ih m hrest hnd hval hcov
      refine ⟨ihnd, ihval, ihmono, ?_⟩
      intro x hx
      rcases List.mem_cons.mp hx with rfl | hx'
      · obtain ⟨q, hq, hqk⟩ := List.any_eq_true.mp hany
        exact ihmono _ (List.mem_map.mpr ⟨q, hq, by simpa using hqk⟩)
      · exact ihkeys x hx'
    · rw [if_neg hany]
      have hnotin : e.activityId ∉ m.map Prod.fst := by
        intro hk
        obtain ⟨q, hq, hqk⟩ := List.mem_map.mp hk
        exact hany (List.any_eq_true.mpr ⟨q, hq, by simp [hqk]⟩)
      have hnd' : ((m ++ [(e.activityId, e)]).map Prod.fst).Nodup := by
        rw [List.map_append]
        refine List.Nodup.append hnd (by simp) ?_
        intro a ha hb
        simp only [List.map_cons, List.map_nil, List.mem_singleton] at hb
        exact hnotin (hb ▸ ha)
      have hval' : ∀ p ∈ m ++ [(e.activityId, e)], p.2.activityId = p.1 ∧
          (p.2 ∈ strava ∨ (p.2 ∈ computed ∧ ∀ s ∈ strava, s.activityId ≠ p.1)) := by
        intro p hp
        rcases List.mem_append.mp hp with h | h
        · exact hval p h
        · obtain rfl : p = (e.activityId, e) := by simpa using h
          refine ⟨rfl, Or.inr ⟨he, ?_⟩⟩
          intro s hs hsk
          have heq : s.activityId = e.activityId := hsk
          exact hnotin (by rw [← heq]; exact hcov s hs)
      have hcov' : ∀ s ∈ strava, s.activityId ∈ (m ++ [(e.activityId, e)]).map Prod.fst := by
        intro s hs
        exact List.mem_map.mpr (by
          obtain ⟨q, hq, hqk⟩ := List.mem_map.mp (hcov s hs)
          exact ⟨q, List.mem_append_left _ hq, hqk⟩)
      obtain ⟨ihnd, ihval, ihmono, ihkeys⟩ := ih (m ++ [(e.activityId, e)]) hrest hnd' hval' hcov'
      refine ⟨ihnd, ihval, ?_, ?_⟩
      · intro a ha
        refine ihmono a ?_
        obtain ⟨q, hq, hqk⟩ := List.mem_map.mp ha
        exact List.mem_map.mpr ⟨q, List.mem_append_left _ hq, hqk⟩
      · intro x hx
        rcases List.mem_cons.mp hx with rfl | hx'
        · refine ihmono _ (List.mem_map.mpr ⟨(x.activityId, x), ?_, rfl⟩)
          exact List.mem_append_right _ (List.mem_singleton.mpr rfl)
        · exact ihkeys x hx'

/-- C9: the merge keeps at most one record per activity identity, prefers the
provider-native record whenever both a Strava and a computed record exist for the
same activity, sorts the output by elapsed segment time ascending, and truncates
to the requested count; every input activity id is represented in the
pre-truncation map.  (Determinism holds because the embedding is a pure
function.) -/
theorem mergeEfforts_spec :
    ∀ (strava computed : List BestEffortResult) (limit : ℕ),
      (mergeEfforts strava computed limit).length ≤ limit ∧
      List.Pairwise (fun a b => a.segmentTimeSeconds ≤ b.segmentTimeSeconds)
        (mergeEfforts strava computed limit) ∧
      ((mergeEfforts strava computed limit).map (fun e => e.activityId)).Nodup ∧
      (∀ e ∈ mergeEfforts strava computed limit,
        e ∈ strava ∨ (e ∈ computed ∧ ∀ s ∈ strava, s.activityId ≠ e.activityId)) ∧
      (∀ e ∈ mergeEfforts strava computed limit,
        (∃ s ∈ strava, s.activityId = e.activityId) → e ∈ strava) ∧
      (∀ a ∈ strava ++ computed, ∃ p ∈ mergedByActivity strava computed,
        p.1 = a.activityId) := by
  intro strava computed limit
  obtain ⟨h1nd, h1val, h1mono, h1keys⟩ :=
    foldl_mapSet_invariant strava strava [] (fun e he => he) (by simp) (by simp)
  obtain ⟨h2nd, h2val, h2mono, h2keys⟩ :=
    foldl_computed_invariant strava computed computed
      (strava.foldl (fun m e => mapSet m e.activityId e) [])
      (fun e he => he) h1nd
      (fun p hp => ⟨(h1val p hp).1, Or.inl (h1val p hp).2⟩)
      h1keys
  have hMdef : mergedByActivity strava computed =
      computed.foldl (fun m e => if m.any (fun p => decide (p.1 = e.activityId)) then m
        else m ++ [(e.activityId, e)])
        (strava.foldl (fun m e => mapSet m e.activityId e) []) := rfl
  rw [← hMdef] at h2nd h2val h2mono h2keys
  have hprov : ∀ e ∈ mergeEfforts strava computed limit,
      e ∈ strava ∨ (e ∈ computed ∧ ∀ s ∈ strava, s.activityId ≠ e.activityId) := by
    intro e he
    simp only [mergeEfforts] at he
    have hmem : e ∈ ((mergedByActivity strava computed).map (fun p => p.2)).mergeSort
        (fun a b => decide (a.segmentTimeSeconds ≤ b.segmentTimeSeconds)) :=
      List.mem_of_mem_take he
    have hmem2 : e ∈ (mergedByActivity strava computed).map (fun p => p.2) :=
      (List.mergeSort_perm _ _).mem_iff.mp hmem
    obtain ⟨p, hp, rfl⟩ := List.mem_map.mp hmem2
    rcases (h2val p hp).2 with h | ⟨hc, hno⟩
    · exact Or.inl h
    · refine Or.inr ⟨hc, ?_⟩
      intro s hs
      rw [(h2val p hp).1]
      exact hno s hs
  refine ⟨?_, ?_, ?_, hprov, ?_, ?_⟩
  · simp only [mergeEfforts]
    rw [List.length_take]
    exact min_le_left _ _
  · have htrans : ∀ (a b c : BestEffortResult),
        decide (a.segmentTimeSeconds ≤ b.segmentTimeSeconds) = true →
        decide (b.segmentTimeSeconds ≤ c.segmentTimeSeconds) = true →
        decide (a.segmentTimeSeconds ≤ c.segmentTimeSeconds) = true := by
      intro a b c hab hbc
      simp only [decide_eq_true_eq] at hab hbc ⊢
      exact le_trans hab hbc
    have htotal : ∀ (a b : BestEffortResult),
        (decide (a.segmentTimeSeconds ≤ b.segmentTimeSeconds) ||
          decide (b.segmentTimeSeconds ≤ a.segmentTimeSeconds)) = true := by
      intro a b
      simp only [Bool.or_eq_true, decide_eq_true_eq]
      exact le_total _ _
    have hsorted := List.sorted_mergeSort htrans htotal
      ((mergedByActivity strava computed).map (fun p => p.2))
    have hsorted' : List.Pairwise
        (fun a b : BestEffortResult => a.segmentTimeSeconds ≤ b.segmentTimeSeconds)
        (((mergedByActivity strava computed).map (fun p => p.2)).mergeSort
          (fun a b => decide (a.segmentTimeSeconds ≤ b.segmentTimeSeconds))) :=
      hsorted.imp (fun h => of_decide_eq_true h)
    simp only [mergeEfforts]
    exact List.Pairwise.sublist (List.take_sublist _ _) hsorted'
  · have hvalkeys : ((mergedByActivity strava computed).map (fun p => p.2)).map
        (fun e => e.activityId) = (mergedByActivity strava computed).map Prod.fst := by
      rw [List.map_map]
      exact List.map_congr_left (fun p hp => (h2val p hp).1)
    have hnodupmerged : (((mergedByActivity strava computed).map (fun p => p.2)).map
        (fun e => e.activityId)).Nodup := by
      rw [hvalkeys]; exact h2nd
    have hperm := (List.mergeSort_perm
        ((mergedByActivity strava computed).map (fun p => p.2))
        (fun a b => decide (a.segmentTimeSeconds ≤ b.segmentTimeSeconds))).map
      (fun e => e.activityId)
    have hnodupsort := List.Nodup.perm hnodupmerged hperm.symm
    simp only [mergeEfforts]
    rw [List.map_take]
    exact (List.take_sublist _ _).nodup hnodupsort
  · intro e he hex
    rcases hprov e he with h | ⟨_, hno⟩
    · exact h
    · obtain ⟨s, hs, hsid⟩ := hex
      exact absurd hsid (hno s hs)
  · intro a ha
    rcases List.mem_append.mp ha with h | h
    · obtain ⟨p, hp, hpk⟩ := List.mem_map.mp (h2mono _ (h1keys a h))
      exact ⟨p, hp, hpk⟩
    · obtain ⟨p, hp, hpk⟩ := List.mem_map.mp (h2keys a h)
      exact ⟨p, hp, hpk⟩

/-- C9 (witness): in the concrete merge fixture, activity 1 appears in both input
lists and the merged output's record for it is the provider-native one. -/
theorem mergeEfforts_spec_witness :
    (⟨1, 200, 1000, EffortSource.strava⟩ : BestEffortResult) ∈ c9strava ∨
      ((⟨1, 200, 1000, EffortSource.strava⟩ : BestEffortResult) ∈ c9computed ∧
        ∀ s ∈ c9strava, s.activityId ≠ 1) :=
  (mergeEfforts_spec c9strava c9computed 5).2.2.2.1
    ⟨1, 200, 1000, EffortSource.strava⟩ (by with_unfolding_all decide)

/-- C10 (witness): a race-flagged activity classifies with high confidence and
the invariant's conclusion holds for it. -/
theorem classifyRun_confidence_invariant_witness :
    (⟨5, 6000, 1980, 0, none, some 1⟩ : ActivityData).workout_type = some 1 ∨
      (classifyRun ⟨5, 6000, 1980, 0, none, some 1⟩ [] none 300).run_type ∈
        [RunType.progression, RunType.intervals, RunType.fartlek, RunType.tempo] :=
  (classifyRun_confidence_invariant ⟨5, 6000, 1980, 0, none, some 1⟩ [] none 300).1
    (by with_unfolding_all decide)

/-- C6 (witness): the six-kilometre-lap fixture is auto-detected and classified by
the fallback, instantiating the fall-through part of the characterization. -/
theorem detectAutoLaps_characterization_witness :
    classifyRun altKmActivity altKmLaps (some exZones) 300 =
      classifyByPaceAndHr altKmActivity (some exZones) 300 :=
  detectAutoLaps_characterization.2 altKmActivity altKmLaps (some exZones) 300
    (by with_unfolding_all decide) (by with_unfolding_all decide)

/-! ## C4 — tempo-block selection (characterization part) -/

/-- Helper: characterization of the tempo scan.  If the scan over `P.drop i`
(with running state `st` satisfying the loop invariant) returns a span `(s, e)`,
then `s` is the first fast index of `P`, both endpoints are fast, the span stays
inside `P`, and the span never contains two consecutive slow laps (a single slow
lap is bridged when a fast lap follows it immediately). -/
theorem tempoScanAux_spec (T : ℚ) (P : List ℚ) :
    ∀ (l : List ℚ) (i : ℕ) (st : Option (ℕ × ℕ)),
      P.drop i = l →
      (st = none → ∀ j < i, ¬ (P.getD j 0 < T)) →
      (∀ s e, st = some (s, e) → s ≤ e ∧ e < i ∧ i ≤ e + 2 ∧ e < P.length ∧
        P.getD s 0 < T ∧ P.getD e 0 < T ∧
        (∀ j < s, ¬ (P.getD j 0 < T)) ∧
        (∀ j, s ≤ j → j + 1 ≤ e → (P.getD j 0 < T ∨ P.getD (j + 1) 0 < T))) →
      ∀ s e, tempoScanAux T l i st = some (s, e) →
        s ≤ e ∧ e < P.length ∧ P.getD s 0 < T ∧ P.getD e 0 < T ∧
        (∀ j < s, ¬ (P.getD j 0 < T)) ∧
        (∀ j, s ≤ j → j + 1 ≤ e → (P.getD j 0 < T ∨ P.getD (j + 1) 0 < T)) := by
  intro l
  induction l with
  | nil =>
    intro i st _ _ hsome s e hres
    simp only [tempoScanAux] at hres
    obtain ⟨h1, _, _, h4, h5, h6, h7, h8⟩ := hsome s e hres
    exact ⟨h1, h4, h5, h6, h7, h8⟩
  | cons p rest ih =>
    intro i st hdrop hnone hsome s e hres
    have hi : i < P.length := by
      have hlen := congrArg List.length hdrop
      rw [List.length_drop, List.length_cons] at hlen
      omega
    have hpi : P.getD i 0 = p := by
      have h0 : P[i]? = some p := by
        have := List.getElem?_drop P i 0
        rw [hdrop] at this
        simpa using this.symm
      simp [List.getD_eq_getElem?_getD, h0]
    have hrest : P.drop (i + 1) = rest := by
      have := List.tail_drop P i
      rw [hdrop] at this
      simpa using this.symm
    rcases st with _ | ⟨s0, e0⟩
    · simp only [tempoScanAux] at hres
      by_cases hpt : p < T
      · rw [if_pos hpt] at hres
        refine ih (i + 1) (some (i, i)) hrest (by simp) ?_ s e hres
        intro s' e' hse
        simp only [Option.some.injEq, Prod.mk.injEq] at hse
        obtain ⟨rfl, rfl⟩ := hse
        refine ⟨le_refl i, by omega, by omega, hi, hpi ▸ hpt, hpi ▸ hpt, ?_, ?_⟩
        · exact hnone rfl
        · intro j h1 h2
          omega
      · rw [if_neg hpt] at hres
        refine ih (i + 1) none hrest ?_ (by simp) s e hres
        intro _ j hj
        rcases Nat.lt_or_ge j i with hj' | hj'
        · exact hnone rfl j hj'
        · have : j = i := by omega
          subst this
          exact hpi ▸ hpt
    · simp only [tempoScanAux] at hres
      obtain ⟨hle, hlt, hgap2, hbound, hfs, hfe, hpre, hg⟩ := hsome s0 e0 rfl
      by_cases hpt : p < T
      · rw [if_pos hpt] at hres
        refine ih (i + 1) (some (s0, i)) hrest (by simp) ?_ s e hres
        intro s' e' hse
        simp only [Option.some.injEq, Prod.mk.injEq] at hse
        obtain ⟨rfl, rfl⟩ := hse
        refine ⟨by omega, by omega, by omega, hi, hfs, hpi ▸ hpt, hpre, ?_⟩
        intro j h1 h2
        rcases Nat.lt_or_ge j e0 with hj | hj
        · exact hg j h1 (by omega)
        · rcases Nat.eq_or_lt_of_le hj with rfl | hj'
          · exact Or.inl hfe
          · have heq : j + 1 = i := by omega
            exact Or.inr (heq ▸ hpi ▸ hpt)
      · rw [if_neg hpt] at hres
        by_cases hbr : i > e0 + 1
        · rw [if_pos hbr] at hres
          simp only [Option.some.injEq, Prod.mk.injEq] at hres
          obtain ⟨rfl, rfl⟩ := hres
          exact ⟨hle, hbound, hfs, hfe, hpre, hg⟩
        · rw [if_neg hbr] at hres
          refine ih (i + 1) (some (s0, e0)) hrest (by simp) ?_ s e hres
          intro s' e' hse
          simp only [Option.some.injEq, Prod.mk.injEq] at hse
          obtain ⟨rfl, rfl⟩ := hse
          exact ⟨hle, by omega, by omega, hbound, hfs, hfe, hpre, hg⟩

/-- C4 (amended): when tempo-block detection succeeds, the selected span starts at
the first lap faster than 92 % of `EasyPaceReference` (not at the longest fast
block), both span endpoints are fast, the span never contains two consecutive
slower laps (a single slower lap is bridged when a faster lap follows), the span
has at least 2 laps and does not cover the whole lap sequence, and the result is
`tempo` with the detail string computed over exactly the spanned laps — bridged
slower laps included. -/
theorem detectTempoBlock_characterization :
    ∀ (laps : List ActivityLapRecord) (easyPaceRef : ℚ) (r : ClassificationResult),
      detectTempoBlock laps (lapPacesOf laps) easyPaceRef = some r →
      ∃ s e, s ≤ e ∧ e < laps.length ∧ 2 ≤ e + 1 - s ∧
        ¬(s = 0 ∧ e = laps.length - 1) ∧
        (lapPacesOf laps).getD s 0 < easyPaceRef * 0.92 ∧
        (lapPacesOf laps).getD e 0 < easyPaceRef * 0.92 ∧
        (∀ j < s, ¬ ((lapPacesOf laps).getD j 0 < easyPaceRef * 0.92)) ∧
        (∀ j, s ≤ j → j + 1 ≤ e →
          ((lapPacesOf laps).getD j 0 < easyPaceRef * 0.92 ∨
            (lapPacesOf laps).getD (j + 1) 0 < easyPaceRef * 0.92)) ∧
        r = tempoBlockResult laps s e := by
  intro laps ref r h
  have hlaplen : (lapPacesOf laps).length = laps.length := by simp [lapPacesOf]
  simp only [detectTempoBlock] at h
  split at h
  · exact absurd h (by simp)
  · split at h
    · exact absurd h (by simp)
    · next s0 e0 heq =>
      split_ifs at h with h1 h2
      have hspec := tempoScanAux_spec (ref * 0.92) (lapPacesOf laps)
        (lapPacesOf laps) 0 none (List.drop_zero _) (fun _ j hj => absurd hj (by omega))
        (fun s' e' hse => absurd hse (by simp)) s0 e0 heq
      obtain ⟨hse, hlen, hfs, hfe, hpre, hgap⟩ := hspec
      refine ⟨s0, e0, hse, ?_, by omega, ?_, hfs, hfe, hpre, hgap, ?_⟩
      · omega
      · rw [hlaplen] at h2
        exact h2
      · exact (Option.some.inj h).symm

/-- C4 (witness): the characterization instantiated on the seven-lap fixture,
where the span is laps 0–1. -/
theorem detectTempoBlock_characterization_witness :
    ∃ s e, s ≤ e ∧ e < tempoLaps.length ∧ 2 ≤ e + 1 - s ∧
      ¬(s = 0 ∧ e = tempoLaps.length - 1) ∧
      (lapPacesOf tempoLaps).getD s 0 < 300 * 0.92 ∧
      (lapPacesOf tempoLaps).getD e 0 < 300 * 0.92 ∧
      (∀ j < s, ¬ ((lapPacesOf tempoLaps).getD j 0 < 300 * 0.92)) ∧
      (∀ j, s ≤ j → j + 1 ≤ e →
        ((lapPacesOf tempoLaps).getD j 0 < 300 * 0.92 ∨
          (lapPacesOf tempoLaps).getD (j + 1) 0 < 300 * 0.92)) ∧
      (⟨RunType.tempo, some "2.0km @ 4:00/km", Confidence.high⟩ : ClassificationResult) =
        tempoBlockResult tempoLaps s e :=
  detectTempoBlock_characterization tempoLaps 300
    ⟨RunType.tempo, some "2.0km @ 4:00/km", Confidence.high⟩
    (by with_unfolding_all decide)

/-! ## C2 — segment search -/

/-- C2 (counterexample): on the stream with samples (0 s, 0 m), (1000 s, 100 m),
(1010 s, 1050 m), the search returns the window over samples 0–2 (normalized time
≈ 962 s), although the in-band window over samples 1–2 has normalized time
≈ 10.5 s: the returned window is not minimal over all windows within the
tolerance band. -/
theorem findFastestSegment_misses_better_window :
    findFastestSegment ⟨exTime, exDistance⟩ 1000 = some ⟨962, 1050, 0, 2⟩ ∧
    windowInBand exDistance 1000 1 2 ∧
    windowNormTime exTime exDistance 1000 1 2 <
      windowNormTime exTime exDistance 1000 0 2 := by
  refine ⟨by with_unfolding_all decide, ?_, by with_unfolding_all decide⟩
  unfold windowInBand
  with_unfolding_all decide

/-- Helper: the left-pointer advance never moves past the right endpoint. -/
theorem advanceStart_le (dist : List ℚ) (target : ℚ) (e : ℕ) :
    ∀ s, s ≤ e → advanceStart dist target e s ≤ e := by
  have key : ∀ n s, e - s ≤ n → s ≤ e → advanceStart dist target e s ≤ e := by
    intro n
    induction n with
    | zero =>
      intro s hn hs
      rw [advanceStart]
      split_ifs with h
      · omega
      · exact hs
    | succ n ihn =>
      intro s hn hs
      rw [advanceStart]
      split_ifs with h
      · exact ihn (s + 1) (by omega) (by omega)
      · exact hs
  intro s hs
  exact key (e - s) s (le_refl _) hs

/-- Helper: when the advance stops, either the pointer reached the right endpoint
or the window no longer exceeds the upper tolerance bound. -/
theorem advanceStart_stop (dist : List ℚ) (target : ℚ) (e : ℕ) :
    ∀ s, s ≤ e → (advanceStart dist target e s = e ∨
      dist.getD e 0 - dist.getD (advanceStart dist target e s) 0 ≤
        target + DISTANCE_TOLERANCE) := by
  have key : ∀ n s, e - s ≤ n → s ≤ e →
      (advanceStart dist target e s = e ∨
        dist.getD e 0 - dist.getD (advanceStart dist target e s) 0 ≤
          target + DISTANCE_TOLERANCE) := by
    intro n
    induction n with
    | zero =>
      intro s hn hs
      rw [advanceStart]
      split_ifs with h
      · omega
      · rcases Nat.lt_or_ge s e with hlt | hge
        · right
          push_neg at h
          exact h hlt
        · left
          omega
    | succ n ihn =>
      intro s hn hs
      rw [advanceStart]
      split_ifs with h
      · exact ihn (s + 1) (by omega) (by omega)
      · rcases Nat.lt_or_ge s e with hlt | hge
        · right
          push_neg at h
          exact h hlt
        · left
          omega
  intro s hs
  exact key (e - s) s (le_refl _) hs

/-- Helper: one more endpoint extends the sweep by one step. -/
theorem sweepState_succ (time dist : List ℚ) (target : ℚ) (k : ℕ) :
    sweepState time dist target (k + 1) =
      segStep time dist target (sweepState time dist target k) k := by
  simp [sweepState, List.range_succ]

/-- Helper: invariant of the sweep after `k` endpoints: the pointer stays within
range, a recorded best window is an in-band window whose stored normalized time
matches its indices, and the best is minimal over all qualifying candidate
windows seen so far. -/
theorem sweep_invariant (time dist : List ℚ) (target : ℚ)
    (ht : DISTANCE_TOLERANCE < target) :
    ∀ k,
      (sweepState time dist target k).1 ≤ k ∧
      ((sweepState time dist target k).2 = none →
        ∀ e < k, ¬ (target - DISTANCE_TOLERANCE ≤
          dist.getD e 0 - dist.getD (candStart time dist target e) 0)) ∧
      (∀ b, (sweepState time dist target k).2 = some b →
        b.bestTime = windowNormTime time dist target b.bestStartIdx b.bestEndIdx ∧
        target - DISTANCE_TOLERANCE ≤
          dist.getD b.bestEndIdx 0 - dist.getD b.bestStartIdx 0 ∧
        dist.getD b.bestEndIdx 0 - dist.getD b.bestStartIdx 0 ≤
          target + DISTANCE_TOLERANCE ∧
        (∀ e < k, target - DISTANCE_TOLERANCE ≤
            dist.getD e 0 - dist.getD (candStart time dist target e) 0 →
          b.bestTime ≤ windowNormTime time dist target (candStart time dist target e) e)) := by
  intro k
  induction k with
  | zero =>
    refine ⟨le_refl 0, ?_, ?_⟩
    · intro _ e he
      omega
    · intro b hb
      simp [sweepState] at hb
  | succ k ih =>
    obtain ⟨ihp, ihnone, ihsome⟩ := ih
    rw [sweepState_succ]
    have hs'le : advanceStart dist target k (sweepState time dist target k).1 ≤ k :=
      advanceStart_le dist target k _ ihp
    have hcand : candStart time dist target k =
        advanceStart dist target k (sweepState time dist target k).1 := rfl
    have hupper : advanceStart dist target k (sweepState time dist target k).1 = k ∨
        dist.getD k 0 -
          dist.getD (advanceStart dist target k (sweepState time dist target k).1) 0 ≤
          target + DISTANCE_TOLERANCE :=
      advanceStart_stop dist target k _ ihp
    simp only [segStep]
    by_cases hq : dist.getD k 0 -
        dist.getD (advanceStart dist target k (sweepState time dist target k).1) 0 ≥
        target - DISTANCE_TOLERANCE
    · rw [if_pos hq]
      have hband : dist.getD k 0 -
          dist.getD (advanceStart dist target k (sweepState time dist target k).1) 0 ≤
          target + DISTANCE_TOLERANCE := by
        rcases hupper with heq | hle
        · exfalso
          rw [heq] at hq
          simp only [sub_self] at hq
          have : target ≤ DISTANCE_TOLERANCE := by linarith
          linarith
        · exact hle
      rcases hb2 : (sweepState time dist target k).2 with _ | b0
      · refine ⟨by simpa using Nat.le_succ_of_le hs'le, ?_, ?_⟩
        · intro hcontra
          simp at hcontra
        · intro b hb
          simp only [Option.some.injEq] at hb
          subst hb
          refine ⟨rfl, hq, hband, ?_⟩
          intro e he hqe
          rcases Nat.lt_or_ge e k with he' | he'
          · exact absurd hqe (ihnone hb2 e he')
          · have : e = k := by omega
            subst this
            rw [hcand]
            exact le_refl _
      · obtain ⟨hb0norm, hb0lo, hb0hi, hb0min⟩ := ihsome b0 hb2
        dsimp only
        split_ifs with hlt
        · refine ⟨by simpa using Nat.le_succ_of_le hs'le, ?_, ?_⟩
          · intro hcontra
            simp at hcontra
          · intro b hb
            simp only [Option.some.injEq] at hb
            subst hb
            refine ⟨rfl, hq, hband, ?_⟩
            intro e he hqe
            rcases Nat.lt_or_ge e k with he' | he'
            · have hmin := hb0min e he' hqe
              dsimp only
              calc (time.getD k 0 -
                    time.getD (advanceStart dist target k (sweepState time dist target k).1) 0) /
                    (dist.getD k 0 -
                      dist.getD (advanceStart dist target k (sweepState time dist target k).1) 0) *
                    target ≤ b0.bestTime := le_of_lt hlt
                _ ≤ _ := hmin
            · have : e = k := by omega
              subst this
              rw [hcand]
              exact le_refl _
        · refine ⟨by simpa using Nat.le_succ_of_le hs'le, ?_, ?_⟩
          · intro hcontra
            simp at hcontra
          · intro b hb
            simp only [Option.some.injEq] at hb
            subst hb
            refine ⟨hb0norm, hb0lo, hb0hi, ?_⟩
            intro e he hqe
            rcases Nat.lt_or_ge e k with he' | he'
            · exact hb0min e he' hqe
            · have : e = k := by omega
              subst this
              rw [hcand]
              exact le_of_not_lt hlt
    · rw [if_neg hq]
      refine ⟨by simpa using Nat.le_succ_of_le hs'le, ?_, ?_⟩
      · intro hnone2 e he
        rcases Nat.lt_or_ge e k with he' | he'
        · exact ihnone hnone2 e he'
        · have : e = k := by omega
          subst this
          rw [hcand]
          exact fun hcon => hq hcon
      · intro b hb
        obtain ⟨hbnorm, hblo, hbhi, hbmin⟩ := ihsome b hb
        refine ⟨hbnorm, hblo, hbhi, ?_⟩
        intro e he hqe
        rcases Nat.lt_or_ge e k with he' | he'
        · exact hbmin e he' hqe
        · have : e = k := by omega
          subst this
          rw [hcand] at hqe
          exact absurd hqe hq

/-- C2 (amended): when the search returns a window (and the target exceeds the
tolerance), that window's distance lies within the ±50 m tolerance band of the
target, and its normalized time is minimal over the candidate windows the
two-pointer sweep examines — the window from the monotone left pointer to each
right endpoint — rather than over all windows within the band. -/
theorem findFastestSegment_band_and_sweep_minimal :
    ∀ (time dist : List ℚ) (target : ℚ), DISTANCE_TOLERANCE < target →
      ∀ r, findFastestSegment ⟨time, dist⟩ target = some r →
        windowInBand dist target r.startIndex r.endIndex ∧
        ∀ e < dist.length,
          target - DISTANCE_TOLERANCE ≤
            dist.getD e 0 - dist.getD (candStart time dist target e) 0 →
          windowNormTime time dist target r.startIndex r.endIndex ≤
            windowNormTime time dist target (candStart time dist target e) e := by
  intro time dist target ht r h
  simp only [findFastestSegment] at h
  split_ifs at h with h1 h2
  rcases hb : (segSweep time dist target).2 with _ | b
  · rw [hb] at h
    simp at h
  · rw [hb] at h
    dsimp only at h
    obtain rfl := (Option.some.inj h).symm
    have hb' : (sweepState time dist target dist.length).2 = some b := hb
    obtain ⟨hn, hlo, hhi, hmin⟩ :=
      (sweep_invariant time dist target ht dist.length).2.2 b hb'
    constructor
    · exact ⟨hlo, hhi⟩
    · intro e he hqe
      dsimp only
      rw [← hn]
      exact hmin e he hqe

/-- C2 (witness): the amended statement instantiated on the counterexample
stream, whose returned window is samples 0–2. -/
theorem findFastestSegment_band_and_sweep_minimal_witness :
    windowInBand exDistance 1000
      (SegResult.startIndex ⟨962, 1050, 0, 2⟩) (SegResult.endIndex ⟨962, 1050, 0, 2⟩) ∧
    ∀ e < exDistance.length,
      1000 - DISTANCE_TOLERANCE ≤
        exDistance.getD e 0 - exDistance.getD (candStart exTime exDistance 1000 e) 0 →
      windowNormTime exTime exDistance 1000
          (SegResult.startIndex ⟨962, 1050, 0, 2⟩) (SegResult.endIndex ⟨962, 1050, 0, 2⟩) ≤
        windowNormTime exTime exDistance 1000 (candStart exTime exDistance 1000 e) e :=
  findFastestSegment_band_and_sweep_minimal exTime exDistance 1000
    (by unfold DISTANCE_TOLERANCE; norm_num) ⟨962, 1050, 0, 2⟩
    (by with_unfolding_all decide)

/-! ## C8 — rate-limited backfill -/

/-- Helper: the freshly upserted lap row is present after `upsertLapRow`. -/
theorem upsertLapRow_mem_self (activityId : ℕ) (rows : List ActivityLapRecord)
    (r : ActivityLapRecord) :
    { r with activity_id := activityId } ∈ upsertLapRow activityId rows r := by
  unfold upsertLapRow
  split_ifs with hany
  · obtain ⟨x, hx, hxk⟩ := List.any_eq_true.mp hany
    simp only [Bool.and_eq_true, decide_eq_true_eq] at hxk
    refine List.mem_map.mpr ⟨x, hx, ?_⟩
    rw [if_pos ⟨hxk.1, hxk.2⟩]
  · exact List.mem_append_right _ (List.mem_singleton.mpr rfl)

/-- Helper: a lap row with a different (activity, lap index) key survives
`upsertLapRow`. -/
theorem upsertLapRow_mem_other (activityId : ℕ) (rows : List ActivityLapRecord)
    (r y : ActivityLapRecord) (hy : y ∈ rows)
    (hk : ¬ (y.activity_id = activityId ∧ y.lap_index = r.lap_index)) :
    y ∈ upsertLapRow activityId rows r := by
  unfold upsertLapRow
  split_ifs with hany
  · refine List.mem_map.mpr ⟨y, hy, ?_⟩
    rw [if_neg hk]
  · exact List.mem_append_left _ hy

/-- Helper: the freshly upserted effort row is present after
`upsertStravaEffortRow`. -/
theorem upsertStravaEffortRow_mem_self (rows : List StravaBestEffortRecord)
    (r : StravaBestEffortRecord) : r ∈ upsertStravaEffortRow rows r := by
  unfold upsertStravaEffortRow
  split_ifs with hany
  · obtain ⟨x, hx, hxk⟩ := List.any_eq_true.mp hany
    simp only [Bool.and_eq_true, decide_eq_true_eq] at hxk
    refine List.mem_map.mpr ⟨x, hx, ?_⟩
    rw [if_pos ⟨hxk.1, hxk.2⟩]
  · exact List.mem_append_right _ (List.mem_singleton.mpr rfl)

/-- Helper: an effort row with a different (activity, distance name) key survives
`upsertStravaEffortRow`. -/
theorem upsertStravaEffortRow_mem_other (rows : List StravaBestEffortRecord)
    (r y : StravaBestEffortRecord) (hy : y ∈ rows)
    (hk : ¬ (y.activity_id = r.activity_id ∧ y.distance_name = r.distance_name)) :
    y ∈ upsertStravaEffortRow rows r := by
  unfold upsertStravaEffortRow
  split_ifs with hany
  · refine List.mem_map.mpr ⟨y, hy, ?_⟩
    rw [if_neg hk]
  · exact List.mem_append_left _ hy

/-- Helper: upserting a list of laps with distinct lap indices leaves every
converted row present. -/
theorem upsertActivityLaps_mem (activityId : ℕ) :
    ∀ (laps : List ActivityLapRecord) (rows : List ActivityLapRecord),
      (laps.map (fun l => l.lap_index)).Nodup →
      ∀ r ∈ laps, { r with activity_id := activityId } ∈
        laps.foldl (upsertLapRow activityId) rows := by
  intro laps
  induction laps with
  | nil => intro rows _ r hr; simp at hr
  | cons l rest ih =>
    intro rows hnd r hr
    simp only [List.map_cons, List.nodup_cons] at hnd
    simp only [List.foldl_cons]
    rcases List.mem_cons.mp hr with rfl | hr'
    · -- the head's row survives all later upserts, whose lap indices differ
      have hself := upsertLapRow_mem_self activityId rows r
      have hpres : ∀ (rest' : List ActivityLapRecord) (rows' : List ActivityLapRecord),
          (∀ l' ∈ rest', l'.lap_index ≠ r.lap_index) →
          { r with activity_id := activityId } ∈ rows' →
          { r with activity_id := activityId } ∈
            rest'.foldl (upsertLapRow activityId) rows' := by
        intro rest'
        induction rest' with
        | nil => intro rows' _ hmem; simpa using hmem
        | cons l' rest'' ih' =>
          intro rows' hne hmem
          simp only [List.foldl_cons]
          refine ih' _ (fun z hz => hne z (List.mem_cons_of_mem l' hz)) ?_
          refine upsertLapRow_mem_other activityId rows' l' _ hmem ?_
          intro hcon
          exact hne l' (List.mem_cons_self l' rest'') hcon.2.symm
      refine hpres rest _ ?_ hself
      intro l' hl' hcon
      exact hnd.1 (List.mem_map.mpr ⟨l', hl', hcon⟩)
    · exact ih _ hnd.2 r hr'

/-- Helper: upserting a list of effort records with distinct distance names
leaves every record present. -/
theorem upsertStravaBestEfforts_mem :
    ∀ (records : List StravaBestEffortRecord) (rows : List StravaBestEffortRecord),
      (records.map (fun r => (r.activity_id, r.distance_name))).Nodup →
      ∀ r ∈ records, r ∈ records.foldl upsertStravaEffortRow rows := by
  intro records
  induction records with
  | nil => intro rows _ r hr; simp at hr
  | cons rec rest ih =>
    intro rows hnd r hr
    simp only [List.map_cons, List.nodup_cons] at hnd
    simp only [List.foldl_cons]
    rcases List.mem_cons.mp hr with rfl | hr'
    · have hself := upsertStravaEffortRow_mem_self rows r
      have hpres : ∀ (rest' : List StravaBestEffortRecord) (rows' : List StravaBestEffortRecord),
          (∀ r' ∈ rest', ¬ (r.activity_id = r'.activity_id ∧ r.distance_name = r'.distance_name)) →
          r ∈ rows' → r ∈ rest'.foldl upsertStravaEffortRow rows' := by
        intro rest'
        induction rest' with
        | nil => intro rows' _ hmem; simpa using hmem
        | cons r' rest'' ih' =>
          intro rows' hne hmem
          simp only [List.foldl_cons]
          refine ih' _ (fun z hz => hne z (List.mem_cons_of_mem r' hz)) ?_
          exact upsertStravaEffortRow_mem_other rows' r' r hmem
            (hne r' (List.mem_cons_self r' rest''))
      refine hpres rest _ ?_ hself
      intro r' hr' hcon
      exact hnd.1 (List.mem_map.mpr ⟨r', hr', by
        simp [Prod.ext_iff, hcon.1.symm, hcon.2.symm]⟩)
    · exact ih _ hnd.2 r hr'

/-- Helper: the backfill loop never touches lap rows of activities outside the
remaining work list. -/
theorem backfillLoop_laps_preserved (fetchDetail : ℕ → FetchOutcome) :
    ∀ (todo : List ActivityRow) (db : Db) (count : ℕ) (lr : ActivityLapRecord),
      lr ∈ db.activity_laps → (∀ b ∈ todo, b.id ≠ lr.activity_id) →
      lr ∈ (backfillLoop fetchDetail todo db count).1.activity_laps := by
  intro todo
  induction todo with
  | nil => intro db count lr hm _; simpa [backfillLoop] using hm
  | cons a rest ih =>
    intro db count lr hm hne
    simp only [backfillLoop]
    rcases hf : fetchDetail a.id with ⟨be, laps⟩ | _ | _
    · dsimp only
      have hne_a : a.id ≠ lr.activity_id := hne a (List.mem_cons_self a rest)
      set db1 := (if be.length > 0 then
        upsertStravaBestEfforts (convertStravaBestEfforts a.id be) db else db) with hdb1
      have h1 : lr ∈ db1.activity_laps := by
        rw [hdb1]
        split_ifs <;> simpa [upsertStravaBestEfforts] using hm
      set db2 := (if laps.length > 0 then
        upsertActivityLaps a.id (laps.map (toLapRecord a.id)) db1 else db1) with hdb2
      have h2 : lr ∈ db2.activity_laps := by
        rw [hdb2]
        split_ifs with hl
        · simp only [upsertActivityLaps]
          have hfold : ∀ (recs rows : List ActivityLapRecord),
              lr ∈ rows → lr ∈ recs.foldl (upsertLapRow a.id) rows := by
            intro recs
            induction recs with
            | nil => intro rows h; simpa using h
            | cons rcd rest' ih' =>
              intro rows h
              simp only [List.foldl_cons]
              refine ih' _ ?_
              refine upsertLapRow_mem_other a.id rows rcd lr h ?_
              intro hcon
              exact hne_a (hcon.1.symm)
          exact hfold _ _ h1
        · exact h1
      refine ih _ (count + 1) lr ?_ (fun b hb => hne b (List.mem_cons_of_mem a hb))
      simpa [markActivityDetailFetched] using h2
    · simpa using hm
    · exact ih _ count lr hm (fun b hb => hne b (List.mem_cons_of_mem a hb))

/-- Helper: the backfill loop never touches effort rows of activities outside the
remaining work list. -/
theorem backfillLoop_efforts_preserved (fetchDetail : ℕ → FetchOutcome) :
    ∀ (todo : List ActivityRow) (db : Db) (count : ℕ) (er : StravaBestEffortRecord),
      er ∈ db.strava_best_efforts → (∀ b ∈ todo, b.id ≠ er.activity_id) →
      er ∈ (backfillLoop fetchDetail todo db count).1.strava_best_efforts := by
  intro todo
  induction todo with
  | nil => intro db count er hm _; simpa [backfillLoop] using hm
  | cons a rest ih =>
    intro db count er hm hne
    simp only [backfillLoop]
    rcases hf : fetchDetail a.id with ⟨be, laps⟩ | _ | _
    · dsimp only
      have hne_a : a.id ≠ er.activity_id := hne a (List.mem_cons_self a rest)
      set db1 := (if be.length > 0 then
        upsertStravaBestEfforts (convertStravaBestEfforts a.id be) db else db) with hdb1
      have h1 : er ∈ db1.strava_best_efforts := by
        rw [hdb1]
        split_ifs with hb
        · simp only [upsertStravaBestEfforts]
          have hfold : ∀ (recs rows : List StravaBestEffortRecord),
              (∀ rc ∈ recs, rc.activity_id = a.id) →
              er ∈ rows → er ∈ recs.foldl upsertStravaEffortRow rows := by
            intro recs
            induction recs with
            | nil => intro rows _ h; simpa using h
            | cons rcd rest' ih' =>
              intro rows hall h
              simp only [List.foldl_cons]
              refine ih' _ (fun z hz => hall z (List.mem_cons_of_mem rcd hz)) ?_
              refine upsertStravaEffortRow_mem_other rows rcd er h ?_
              intro hcon
              apply hne_a
              rw [← hall rcd (List.mem_cons_self rcd rest'), ← hcon.1]
          refine hfold _ _ ?_ hm
          intro rc hrc
          simp only [convertStravaBestEfforts] at hrc
          obtain ⟨eff, _, heq⟩ := List.mem_filterMap.mp hrc
          rcases hmap : STRAVA_DISTANCE_NAME_MAP eff.name with _ | nm
          · rw [hmap] at heq; simp at heq
          · rw [hmap] at heq
            simp only [Option.some.injEq] at heq
            rw [← heq]
        · exact hm
      set db2 := (if laps.length > 0 then
        upsertActivityLaps a.id (laps.map (toLapRecord a.id)) db1 else db1) with hdb2
      have h2 : er ∈ db2.strava_best_efforts := by
        rw [hdb2]
        split_ifs <;> simpa [upsertActivityLaps] using h1
      refine ih _ (count + 1) er ?_ (fun b hb => hne b (List.mem_cons_of_mem a hb))
      simpa [markActivityDetailFetched] using h2
    · simpa using hm
    · exact ih _ count er hm (fun b hb => hne b (List.mem_cons_of_mem a hb))

/-- Helper: running the backfill loop over `pre ++ x :: post`, where every
activity in `pre` fetches successfully and `x` hits the rate limit, processes
exactly `pre`: the count rises by `pre.length`, exactly the ids of `pre` are
marked detail-fetched, and the laps and provider efforts returned for each
processed activity are persisted. -/
theorem backfillLoop_go (fetchDetail : ℕ → FetchOutcome) :
    ∀ (pre : List ActivityRow) (x : ActivityRow) (post : List ActivityRow)
      (db : Db) (count : ℕ),
      (∀ a ∈ pre, ∃ be laps, fetchDetail a.id = FetchOutcome.ok be laps) →
      fetchDetail x.id = FetchOutcome.rateLimited →
      (((pre ++ x :: post).map (fun a => a.id)).Nodup) →
      (backfillLoop fetchDetail (pre ++ x :: post) db count).2 = count + pre.length ∧
      (backfillLoop fetchDetail (pre ++ x :: post) db count).1.activities =
        db.activities.map (fun r =>
          if r.id ∈ pre.map (fun a => a.id) then { r with detail_fetched := true }
          else r) ∧
      (∀ a ∈ pre, ∀ be laps, fetchDetail a.id = FetchOutcome.ok be laps →
        ((laps.map (toLapRecord a.id)).map (fun l => l.lap_index)).Nodup →
        ∀ lr ∈ laps.map (toLapRecord a.id),
          lr ∈ (backfillLoop fetchDetail (pre ++ x :: post) db count).1.activity_laps) ∧
      (∀ a ∈ pre, ∀ be laps, fetchDetail a.id = FetchOutcome.ok be laps →
        ((convertStravaBestEfforts a.id be).map
          (fun r => (r.activity_id, r.distance_name))).Nodup →
        ∀ er ∈ convertStravaBestEfforts a.id be,
          er ∈ (backfillLoop fetchDetail (pre ++ x :: post) db count).1.strava_best_efforts) := by
  intro pre
  induction pre with
  | nil =>
    intro x post db count _ hrl _
    simp only [List.nil_append, backfillLoop, hrl]
    refine ⟨by simp, by simp, by simp, by simp⟩
  | cons a pre' ih =>
    intro x post db count hok hrl hnd
    obtain ⟨be, laps, hfa⟩ := hok a (List.mem_cons_self a pre')
    have hok' : ∀ a' ∈ pre', ∃ be laps, fetchDetail a'.id = FetchOutcome.ok be laps :=
      fun a' ha' => hok a' (List.mem_cons_of_mem a ha')
    rw [List.cons_append, List.map_cons, List.nodup_cons] at hnd
    obtain ⟨hanotin, hnd'⟩ := hnd
    rw [List.cons_append]
    simp only [backfillLoop, hfa]
    set db1 := (if be.length > 0 then
      upsertStravaBestEfforts (convertStravaBestEfforts a.id be) db else db) with hdb1
    set db2 := (if laps.length > 0 then
      upsertActivityLaps a.id (laps.map (toLapRecord a.id)) db1 else db1) with hdb2
    set db3 := markActivityDetailFetched a.id db2 with hdb3
    obtain ⟨ih1, ih2, ih3, ih4⟩ := ih x post db3 (count + 1) hok' hrl hnd'
    have hacts3 : db3.activities = db.activities.map
        (fun r => if r.id = a.id then { r with detail_fetched := true } else r) := by
      rw [hdb3, hdb2, hdb1]
      simp only [markActivityDetailFetched, upsertActivityLaps, upsertStravaBestEfforts]
      split_ifs <;> rfl
    refine ⟨?_, ?_, ?_, ?_⟩
    · rw [ih1]
      simp only [List.length_cons]
      omega
    · rw [ih2, hacts3, List.map_map]
      apply List.map_congr_left
      intro r _
      simp only [Function.comp, List.map_cons]
      by_cases hid : r.id = a.id
      · rw [if_pos hid, if_pos (show r.id ∈ a.id :: pre'.map (fun a => a.id) by
          simp [hid])]
        split_ifs <;> rfl
      · rw [if_neg hid]
        by_cases hmem : r.id ∈ pre'.map (fun a => a.id)
        · rw [if_pos hmem, if_pos (List.mem_cons_of_mem _ hmem)]
        · rw [if_neg hmem, if_neg (by simp [hid, hmem])]
    · intro a' ha' be' laps' hfa' hndx lr hlr
      rcases List.mem_cons.mp ha' with rfl | ha''
      · rw [hfa] at hfa'
        injection hfa' with h1 h2
        subst h1
        subst h2
        have hlen : laps.length > 0 := by
          cases laps
          · simp at hlr
          · simp
        have hlid : lr.activity_id = a'.id := by
          obtain ⟨l0, _, rfl⟩ := List.mem_map.mp hlr
          rfl
        have hmem2 : lr ∈ db2.activity_laps := by
          rw [hdb2, if_pos hlen]
          simp only [upsertActivityLaps]
          have hm := upsertActivityLaps_mem a'.id (laps.map (toLapRecord a'.id))
            db1.activity_laps hndx lr hlr
          obtain ⟨l0, _, rfl⟩ := List.mem_map.mp hlr
          exact hm
        have hmem3 : lr ∈ db3.activity_laps := by
          rw [hdb3]
          simpa [markActivityDetailFetched] using hmem2
        refine backfillLoop_laps_preserved fetchDetail (pre' ++ x :: post) db3
          (count + 1) lr hmem3 ?_
        intro b hb hbid
        exact hanotin (List.mem_map.mpr ⟨b, hb, by rw [hbid, hlid]⟩)
      · exact ih3 a' ha'' be' laps' hfa' hndx lr hlr
    · intro a' ha' be' laps' hfa' hndx er her
      rcases List.mem_cons.mp ha' with rfl | ha''
      · rw [hfa] at hfa'
        injection hfa' with h1 h2
        subst h1
        subst h2
        have hblen : be.length > 0 := by
          cases hbe : be
          · rw [hbe] at her
            simp [convertStravaBestEfforts] at her
          · simp [hbe]
        have heid : er.activity_id = a'.id := by
          simp only [convertStravaBestEfforts] at her
          obtain ⟨eff, _, heq⟩ := List.mem_filterMap.mp her
          rcases hmap : STRAVA_DISTANCE_NAME_MAP eff.name with _ | nm
          · rw [hmap] at heq
            simp at heq
          · rw [hmap] at heq
            simp only [Option.some.injEq] at heq
            rw [← heq]
        have hmem1 : er ∈ db1.strava_best_efforts := by
          rw [hdb1, if_pos hblen]
          simp only [upsertStravaBestEfforts]
          exact upsertStravaBestEfforts_mem (convertStravaBestEfforts a'.id be)
            db.strava_best_efforts hndx er her
        have hmem2 : er ∈ db2.strava_best_efforts := by
          rw [hdb2]
          split_ifs <;> simpa [upsertActivityLaps] using hmem1
        have hmem3 : er ∈ db3.strava_best_efforts := by
          rw [hdb3]
          simpa [markActivityDetailFetched] using hmem2
        refine backfillLoop_efforts_preserved fetchDetail (pre' ++ x :: post) db3
          (count + 1) er hmem3 ?_
        intro b hb hbid
        exact hanotin (List.mem_map.mpr ⟨b, hb, by rw [hbid, heid]⟩)
      · exact ih4 a' ha'' be' laps' hfa' hndx er her

/-- C8: when the detail fetch hits the rate limit after the activities `pre` of
the selected backfill batch have been processed, the loop stops without failing:
the processed count is exactly `pre.length`, precisely the rows with ids in
`pre` are marked detail-fetched, the laps and provider best efforts returned for
each processed activity are persisted, and every remaining selected activity is
still present unmarked and eligible for selection on the next sync. -/
theorem backfillLoop_rate_limit_partial_progress
    (fetchDetail : ℕ → FetchOutcome) (limit : ℕ) (db : Db)
    (pre : List ActivityRow) (x : ActivityRow) (post : List ActivityRow)
    (hsel : getActivitiesWithoutDetail limit db = pre ++ x :: post)
    (hok : ∀ a ∈ pre, ∃ be laps, fetchDetail a.id = FetchOutcome.ok be laps)
    (hrl : fetchDetail x.id = FetchOutcome.rateLimited)
    (hnd : (db.activities.map (fun r => r.id)).Nodup) :
    (backfillLoop fetchDetail (getActivitiesWithoutDetail limit db) db 0).2 =
      pre.length ∧
    (backfillLoop fetchDetail (getActivitiesWithoutDetail limit db) db 0).1.activities =
      db.activities.map (fun r =>
        if r.id ∈ pre.map (fun a => a.id) then { r with detail_fetched := true }
        else r) ∧
    (∀ a ∈ pre, ∀ be laps, fetchDetail a.id = FetchOutcome.ok be laps →
      ((laps.map (toLapRecord a.id)).map (fun l => l.lap_index)).Nodup →
      ∀ lr ∈ laps.map (toLapRecord a.id),
        lr ∈ (backfillLoop fetchDetail (getActivitiesWithoutDetail limit db)
          db 0).1.activity_laps) ∧
    (∀ a ∈ pre, ∀ be laps, fetchDetail a.id = FetchOutcome.ok be laps →
      ((convertStravaBestEfforts a.id be).map
        (fun r => (r.activity_id, r.distance_name))).Nodup →
      ∀ er ∈ convertStravaBestEfforts a.id be,
        er ∈ (backfillLoop fetchDetail (getActivitiesWithoutDetail limit db)
          db 0).1.strava_best_efforts) ∧
    (∀ a ∈ x :: post,
      a ∈ (backfillLoop fetchDetail (getActivitiesWithoutDetail limit db)
        db 0).1.activities ∧
      eligibleForDetail a = true) := by
  have hselnd : ((pre ++ x :: post).map (fun a => a.id)).Nodup := by
    rw [← hsel]
    have h1 : ((db.activities.filter eligibleForDetail).map (fun r => r.id)).Nodup :=
      ((List.filter_sublist _).map _).nodup hnd
    have h2 := List.Nodup.perm h1
      ((List.mergeSort_perm (db.activities.filter eligibleForDetail)
        (fun a b => decide (b.start_date_local ≤ a.start_date_local))).map
        (fun r => r.id)).symm
    exact ((List.take_sublist _ _).map _).nodup h2
  obtain ⟨g1, g2, g3, g4⟩ := backfillLoop_go fetchDetail pre x post db 0 hok hrl hselnd
  rw [hsel]
  refine ⟨by rw [g1]; omega, g2, g3, g4, ?_⟩
  intro a ha
  have hamem : a ∈ getActivitiesWithoutDetail limit db := by
    rw [hsel]
    exact List.mem_append_right pre ha
  have hafilt : a ∈ db.activities.filter eligibleForDetail :=
    (List.mergeSort_perm _ _).mem_iff.mp (List.mem_of_mem_take hamem)
  obtain ⟨hadb, haelig⟩ := List.mem_filter.mp hafilt
  have hdisj : ∀ i ∈ pre.map (fun a => a.id), i ∉ (x :: post).map (fun a => a.id) := by
    rw [List.map_append, List.nodup_append] at hselnd
    exact fun i hi hj => hselnd.2.2 hi hj
  have hanotpre : a.id ∉ pre.map (fun a => a.id) := fun hin =>
    hdisj a.id hin (List.mem_map.mpr ⟨a, ha, rfl⟩)
  refine ⟨?_, haelig⟩
  rw [g2]
  refine List.mem_map.mpr ⟨a, hadb, ?_⟩
  rw [if_neg hanotpre]

/-- Witness for C8 at the three-activity fixture: the loop processes only the
newest activity (id 3), the rate-limited fetch for id 2 stops it, ids 2 and 1
remain unmarked and eligible. -/
theorem backfillLoop_rate_limit_partial_progress_witness :
    (backfillLoop c8fetch (getActivitiesWithoutDetail 10 c8db) c8db 0).2 = 1 ∧
    (backfillLoop c8fetch (getActivitiesWithoutDetail 10 c8db) c8db 0).1.activities =
      c8db.activities.map (fun r =>
        if r.id ∈ [backRow 3 "2025-01-03"].map (fun a => a.id) then
          { r with detail_fetched := true } else r) ∧
    (∀ a ∈ [backRow 2 "2025-01-02", backRow 1 "2025-01-01"],
      a ∈ (backfillLoop c8fetch (getActivitiesWithoutDetail 10 c8db) c8db 0).1.activities ∧
      eligibleForDetail a = true) := by
  have h := backfillLoop_rate_limit_partial_progress c8fetch 10 c8db
    [backRow 3 "2025-01-03"] (backRow 2 "2025-01-02") [backRow 1 "2025-01-01"]
    (by with_unfolding_all rfl)
    (by
      intro a ha
      rw [List.mem_singleton] at ha
      subst ha
      exact ⟨[c8effort], [c8lap], by with_unfolding_all decide⟩)
    (by with_unfolding_all decide)
    (by with_unfolding_all decide)
  exact ⟨h.1, h.2.1, h.2.2.2.2⟩
